import Mathlib

/-!
Verification development for the tchannel core: a shallow embedding of the
frame codec (src/node/v2/init.js frame section, src/v2/init.js, src/v2/call.js),
the chunk reader (src/unnamed/part_000), the connection state machine
(src/index.js) and the error serializer / endpoint router (src/lib/error_serial.js),
together with theorems settling the specification's claims about them.

Machine integers are modelled as `Nat` with explicit `% 2 ^ w` where the source
wraps; buffers are `List Nat` of byte values; fallible code returns `Option` or
`Except`; JavaScript objects used as string-keyed tables are modelled as
association lists (insertion ordered, unique keys) or as total functions with
`[]` default where that matches lookup semantics.
-/

namespace TChan

/-- Byte buffers: lists of byte values (each `< 256` in the legal space). -/
abbrev Bytes := List Nat

/-- All elements of a buffer are bytes. -/
def bytesOk (bs : Bytes) : Prop := ∀ b ∈ bs, b < 256

instance : DecidablePred bytesOk := fun bs =>
  inferInstanceAs (Decidable (∀ b ∈ bs, b < 256))

/-- Big-endian 16-bit encoding (`buffer.writeUInt16BE`). -/
def be16 (n : Nat) : Bytes := [n / 2 ^ 8 % 256, n % 256]

/-- Big-endian 32-bit encoding (`buffer.writeUInt32BE`). -/
def be32 (n : Nat) : Bytes :=
  [n / 2 ^ 24 % 256, n / 2 ^ 16 % 256, n / 2 ^ 8 % 256, n % 256]

/-- Read one byte (`read.UInt8`): fails when the buffer is exhausted. -/
def readU8 : Bytes → Option (Nat × Bytes)
  | [] => none
  | b :: rest => some (b, rest)

/-- Read a big-endian 16-bit value (`read.UInt16BE`). -/
def readU16 : Bytes → Option (Nat × Bytes)
  | b1 :: b0 :: rest => some (b1 * 2 ^ 8 + b0, rest)
  | _ => none

/-- Read a big-endian 32-bit value (`read.UInt32BE`). -/
def readU32 : Bytes → Option (Nat × Bytes)
  | b3 :: b2 :: b1 :: b0 :: rest =>
    some (((b3 * 256 + b2) * 256 + b1) * 256 + b0, rest)
  | _ => none

/-- Read exactly `n` raw bytes (`read.fixed(n)`): fails when fewer are available. -/
def readN (n : Nat) (bs : Bytes) : Option (Bytes × Bytes) :=
  if bs.length < n then none else some (bs.take n, bs.drop n)

/-- Write a 2-byte length prefix followed by the bytes (`write.buf2`). -/
def writeBuf2 (b : Bytes) : Bytes := be16 b.length ++ b

/-- Read a 2-byte length prefix then that many bytes (`read.buf2`). -/
def readBuf2 (bs : Bytes) : Option (Bytes × Bytes) :=
  match readU16 bs with
  | none => none
  | some (n, rest) => readN n rest

theorem readU8_cons (b : Nat) (rest : Bytes) : readU8 (b :: rest) = some (b, rest) := rfl

theorem readU16_be16 (n : Nat) (h : n < 2 ^ 16) (rest : Bytes) :
    readU16 (be16 n ++ rest) = some (n, rest) := by
  simp only [be16, List.cons_append, List.nil_append, readU16, Option.some.injEq, Prod.mk.injEq,
    and_true]
  omega

theorem readU32_be32 (n : Nat) (h : n < 2 ^ 32) (rest : Bytes) :
    readU32 (be32 n ++ rest) = some (n, rest) := by
  simp only [be32, List.cons_append, List.nil_append, readU32, Option.some.injEq, Prod.mk.injEq,
    and_true]
  omega

theorem readN_exact (b rest : Bytes) : readN b.length (b ++ rest) = some (b, rest) := by
  simp [readN, List.take_append_of_le_length, List.drop_append_of_le_length,
    Nat.not_lt.mpr (Nat.le_add_right _ _)]

theorem readBuf2_writeBuf2 (b : Bytes) (h : b.length < 2 ^ 16) (rest : Bytes) :
    readBuf2 (writeBuf2 b ++ rest) = some (b, rest) := by
  simp only [writeBuf2, List.append_assoc, readBuf2, readU16_be16 _ h, readN_exact]

/-! ## C5: the frame id allocator (src/index.js `nextFrameId`)

`self.lastSentFrameId = (self.lastSentFrameId + 1) % 0xffffffff; return self.lastSentFrameId`
with `lastSentFrameId` initialised to `0` in the connection constructor. -/

/-- `TChannelConnection.prototype.nextFrameId`: the id returned (and stored) when
the previous `lastSentFrameId` was `last`.  Note the source's modulus literal is
`0xffffffff`, i.e. `2 ^ 32 - 1`. -/
def nextFrameId (last : Nat) : Nat := (last + 1) % 0xffffffff

/-- The issued-id sequence: `idAt k` is the `lastSentFrameId` after `k` issuances
on a fresh connection (`lastSentFrameId = 0`). -/
def idAt (k : Nat) : Nat := nextFrameId^[k] 0

/-- C5 counterexample: the claim says `next = (last + 1) mod 2 ^ 32`, so after
`last = 2 ^ 32 - 2` the next id would be `2 ^ 32 - 1`; the code's modulus is
`0xffffffff = 2 ^ 32 - 1`, so the next id is `0`. -/
theorem nextFrameId_not_mod_two_pow_32 :
    nextFrameId (2 ^ 32 - 2) = 0 ∧ (2 ^ 32 - 2 + 1) % 2 ^ 32 = 2 ^ 32 - 1 ∧
      nextFrameId (2 ^ 32 - 2) ≠ (2 ^ 32 - 2 + 1) % 2 ^ 32 := by
  refine ⟨by norm_num [nextFrameId], by norm_num, by norm_num [nextFrameId]⟩

/-- C5 amended: the allocator is `next = (last + 1) mod (2 ^ 32 - 1)`; the first
id issued on a fresh connection is `1`; the id `2 ^ 32 - 1` is never issued, and
after the id `2 ^ 32 - 2` the next issued id is `0`; the sequence of issued ids
is exactly the orbit of this recurrence from `0`. -/
theorem nextFrameId_spec :
    (∀ last, nextFrameId last = (last + 1) % (2 ^ 32 - 1)) ∧
      idAt 1 = 1 ∧
      (∀ last, nextFrameId last ≠ 2 ^ 32 - 1) ∧
      nextFrameId (2 ^ 32 - 2) = 0 ∧
      (∀ k, idAt (k + 1) = nextFrameId (idAt k)) := by
  refine ⟨fun last => by norm_num [nextFrameId], by decide, fun last => ?_,
    by norm_num [nextFrameId], fun k => ?_⟩
  · have h : (last + 1) % 0xffffffff < 0xffffffff := Nat.mod_lt _ (by norm_num)
    simp only [nextFrameId]
    omega
  · simp [idAt, Function.iterate_succ_apply']

/-! ## C8: endpoint registration

`TChannel.prototype.register` (src/index.js) stores into the JavaScript object
`self.endpoints` unconditionally; `TRouterService.prototype.register`
(src/lib/error_serial.js, router section) throws `EndpointAlreadyDefinedError`
when the name is already present. -/

/-- JavaScript object property assignment on a string-keyed table kept as an
insertion-ordered association list: an existing key keeps its position but gets
the new value; a new key is appended. -/
def objSet {κ ν : Type} [DecidableEq κ] : List (κ × ν) → κ → ν → List (κ × ν)
  | [], k, v => [(k, v)]
  | (k0, v0) :: rest, k, v =>
    if k0 = k then (k0, v) :: rest else (k0, v0) :: objSet rest k v

/-- JavaScript object property read: first (unique) matching key. -/
def objGet {κ ν : Type} [DecidableEq κ] : List (κ × ν) → κ → Option ν
  | [], _ => none
  | (k0, v0) :: rest, k => if k0 = k then some v0 else objGet rest k

/-- `TChannel.prototype.register(op, callback)`: `self.endpoints[op] = callback`
with no presence check. -/
def channelRegister {η : Type} (endpoints : List (Bytes × η)) (op : Bytes) (callback : η) :
    List (Bytes × η) :=
  objSet endpoints op callback

/-- A JavaScript value offered as a handler: either a function or some
non-function value (`typeof handler !== 'function'`). -/
inductive HVal (η : Type) where
  | fn (f : η)
  | nonfn
  deriving DecidableEq

/-- Errors thrown by the router registration path. -/
inductive RegErr where
  | endpointAlreadyDefined
  | invalidHandler
  deriving DecidableEq

/-- `TRouterService.prototype.register(name, handler)`: throws
`EndpointAlreadyDefinedError` if the name is present, then `invalid handler`
if the handler is not a function, else stores the handler. -/
def routerServiceRegister {η : Type} (endpoints : List (String × HVal η)) (name : String)
    (handler : HVal η) : Except RegErr (List (String × HVal η)) :=
  if (objGet endpoints name).isSome then .error .endpointAlreadyDefined
  else
    match handler with
    | .nonfn => .error .invalidHandler
    | .fn f => .ok (objSet endpoints name (.fn f))

/-- C8 counterexample: registering an already-present name on the channel's
endpoint registry is not an error and does not leave the existing handler in
place: `TChannel.prototype.register` silently replaces it.  Handlers are
represented by `Nat` tags; the endpoint name is the byte string `[101]`. -/
theorem channelRegister_overwrites :
    channelRegister [([101], 0)] [101] 1 = [([101], 1)] ∧
      objGet (channelRegister [([101], 0)] [101] 1) [101] = some 1 ∧
      objGet (channelRegister [([101], 0)] [101] 1) [101] ≠ some 0 := by
  refine ⟨by decide, by decide, by decide⟩

/-- C8 amended: only the router-service registry rejects redefinition: for every
endpoint name already present in a `TRouterService` endpoint table, registering
that name again throws `EndpointAlreadyDefinedError` (for every handler value,
function or not), leaving the registry unchanged; the channel-level
`TChannel.prototype.register` instead overwrites unconditionally. -/
theorem routerServiceRegister_rejects {η : Type} (endpoints : List (String × HVal η))
    (name : String) (h0 : HVal η) (hmem : objGet endpoints name = some h0)
    (handler : HVal η) :
    routerServiceRegister endpoints name handler = .error .endpointAlreadyDefined := by
  simp [routerServiceRegister, hmem]

/-- Witness for the C8 amended theorem at a concrete registry. -/
theorem routerServiceRegister_rejects_witness :
    routerServiceRegister [("echo", HVal.fn 0)] "echo" (HVal.fn 7)
      = .error .endpointAlreadyDefined :=
  routerServiceRegister_rejects [("echo", HVal.fn 0)] "echo" (HVal.fn 0) (by decide)
    (HVal.fn 7)

/-! ## C9: application-error serialization (src/lib/error_serial.js)

`serializeError` passes strings through and JSON-stringifies everything else
(wrapping Error instances in a `$jsError` envelope); `deserializeError` JSON
parses, returning the input string verbatim when parsing fails.  We model the
JavaScript value domain with `JVal` (JSON-representable values, numbers kept as
their source literal) plus Error instances. -/

/-- JSON values as produced by `JSON.parse`.  A number keeps its source literal
(its exact numeric meaning is irrelevant to the claims; distinctness from
strings is what matters). -/
inductive JVal where
  | jnull
  | jbool (b : Bool)
  | jnum (raw : String)
  | jstr (s : String)
  | jarr (elems : List JVal)
  | jobj (fields : List (String × JVal))

mutual

def JVal.beq : JVal → JVal → Bool
  | .jnull, .jnull => true
  | .jbool a, .jbool b => a == b
  | .jnum a, .jnum b => a == b
  | .jstr a, .jstr b => a == b
  | .jarr a, .jarr b => JVal.beqList a b
  | .jobj a, .jobj b => JVal.beqFields a b
  | _, _ => false

def JVal.beqList : List JVal → List JVal → Bool
  | [], [] => true
  | a :: as, b :: bs => JVal.beq a b && JVal.beqList as bs
  | _, _ => false

def JVal.beqFields : List (String × JVal) → List (String × JVal) → Bool
  | [], [] => true
  | (k1, v1) :: as, (k2, v2) :: bs => k1 == k2 && JVal.beq v1 v2 && JVal.beqFields as bs
  | _, _ => false

end

mutual

theorem JVal.beq_iff : ∀ a b : JVal, JVal.beq a b = true ↔ a = b
  | .jnull, .jnull => by simp [JVal.beq]
  | .jnull, .jbool _ | .jnull, .jnum _ | .jnull, .jstr _ | .jnull, .jarr _
  | .jnull, .jobj _ => by simp [JVal.beq]
  | .jbool _, .jnull | .jbool _, .jnum _ | .jbool _, .jstr _ | .jbool _, .jarr _
  | .jbool _, .jobj _ => by simp [JVal.beq]
  | .jnum _, .jnull | .jnum _, .jbool _ | .jnum _, .jstr _ | .jnum _, .jarr _
  | .jnum _, .jobj _ => by simp [JVal.beq]
  | .jstr _, .jnull | .jstr _, .jbool _ | .jstr _, .jnum _ | .jstr _, .jarr _
  | .jstr _, .jobj _ => by simp [JVal.beq]
  | .jarr _, .jnull | .jarr _, .jbool _ | .jarr _, .jnum _ | .jarr _, .jstr _
  | .jarr _, .jobj _ => by simp [JVal.beq]
  | .jobj _, .jnull | .jobj _, .jbool _ | .jobj _, .jnum _ | .jobj _, .jstr _
  | .jobj _, .jarr _ => by simp [JVal.beq]
  | .jbool a, .jbool b => by simp [JVal.beq]
  | .jnum a, .jnum b => by simp [JVal.beq]
  | .jstr a, .jstr b => by simp [JVal.beq]
  | .jarr a, .jarr b => by simp [JVal.beq, JVal.beqList_iff a b]
  | .jobj a, .jobj b => by simp [JVal.beq, JVal.beqFields_iff a b]

theorem JVal.beqList_iff : ∀ a b : List JVal, JVal.beqList a b = true ↔ a = b
  | [], [] => by simp [JVal.beqList]
  | [], _ :: _ => by simp [JVal.beqList]
  | _ :: _, [] => by simp [JVal.beqList]
  | a :: as, b :: bs => by
    simp [JVal.beqList, JVal.beq_iff a b, JVal.beqList_iff as bs]

theorem JVal.beqFields_iff : ∀ a b : List (String × JVal), JVal.beqFields a b = true ↔ a = b
  | [], [] => by simp [JVal.beqFields]
  | [], _ :: _ => by simp [JVal.beqFields]
  | _ :: _, [] => by simp [JVal.beqFields]
  | (k1, v1) :: as, (k2, v2) :: bs => by
    simp [JVal.beqFields, JVal.beq_iff v1 v2, JVal.beqFields_iff as bs, and_assoc,
      Prod.ext_iff]

end

instance : DecidableEq JVal := fun a b =>
  decidable_of_iff (JVal.beq a b = true) (JVal.beq_iff a b)

/-- JSON whitespace accepted by `JSON.parse`. -/
def isJsonWs (c : Char) : Bool := c = ' ' || c = '\t' || c = '\n' || c = '\r'

def skipWs (cs : List Char) : List Char := cs.dropWhile isJsonWs

/-- A hexadecimal digit character. -/
def isHexDigitC (c : Char) : Bool :=
  c.isDigit || ('a' ≤ c && c ≤ 'f') || ('A' ≤ c && c ≤ 'F')

/-- Value of a hexadecimal digit character. -/
def hexVal (c : Char) : Nat :=
  if c.isDigit then c.toNat - 48
  else if 'a' ≤ c then c.toNat - 87
  else c.toNat - 55

/-- Body of a JSON string literal after the opening quote: unescapes and stops
at the closing quote; rejects unescaped control characters and bad escapes. -/
def parseStrBody : List Char → Option (List Char × List Char)
  | [] => none
  | '"' :: rest => some ([], rest)
  | '\\' :: esc =>
    match esc with
    | '"' :: rest => (parseStrBody rest).map (fun p => ('"' :: p.1, p.2))
    | '\\' :: rest => (parseStrBody rest).map (fun p => ('\\' :: p.1, p.2))
    | '/' :: rest => (parseStrBody rest).map (fun p => ('/' :: p.1, p.2))
    | 'b' :: rest => (parseStrBody rest).map (fun p => (Char.ofNat 8 :: p.1, p.2))
    | 'f' :: rest => (parseStrBody rest).map (fun p => (Char.ofNat 12 :: p.1, p.2))
    | 'n' :: rest => (parseStrBody rest).map (fun p => ('\n' :: p.1, p.2))
    | 'r' :: rest => (parseStrBody rest).map (fun p => ('\r' :: p.1, p.2))
    | 't' :: rest => (parseStrBody rest).map (fun p => ('\t' :: p.1, p.2))
    | 'u' :: h1 :: h2 :: h3 :: h4 :: rest =>
      if isHexDigitC h1 && isHexDigitC h2 && isHexDigitC h3 && isHexDigitC h4 then
        (parseStrBody rest).map (fun p =>
          (Char.ofNat (((hexVal h1 * 16 + hexVal h2) * 16 + hexVal h3) * 16 + hexVal h4)
            :: p.1, p.2))
      else none
    | _ => none
  | c :: rest =>
    if c.toNat < 32 then none
    else (parseStrBody rest).map (fun p => (c :: p.1, p.2))

/-- Exponent part of a JSON number literal after the `e`/`E` marker:
`[+-]? [0-9]+`; `pfx` is the literal so far. -/
def parseNumExp (pfx : List Char) (r3 : List Char) : Option (JVal × List Char) :=
  let (signPart, r4) : List Char × List Char :=
    match r3 with
    | '+' :: r => (['+'], r)
    | '-' :: r => (['-'], r)
    | _ => ([], r3)
  match r4 with
  | d :: _ =>
    if d.isDigit then
      some (.jnum (String.mk (pfx ++ signPart ++ r4.takeWhile Char.isDigit)),
        r4.dropWhile Char.isDigit)
    else none
  | [] => none

/-- Fraction and exponent of a JSON number literal: `(\.[0-9]+)?([eE][+-]?[0-9]+)?`;
`intPart` is the (possibly negated) integer literal so far. -/
def parseNumFrac (intPart : List Char) (r : List Char) : Option (JVal × List Char) :=
  let fr : Option (List Char × List Char) :=
    match r with
    | '.' :: d :: r1 =>
      if d.isDigit then
        some ('.' :: d :: r1.takeWhile Char.isDigit, r1.dropWhile Char.isDigit)
      else none
    | '.' :: [] => none
    | _ => some ([], r)
  match fr with
  | none => none
  | some (fracPart, r2) =>
    match r2 with
    | 'e' :: r3 => parseNumExp (intPart ++ fracPart ++ ['e']) r3
    | 'E' :: r3 => parseNumExp (intPart ++ fracPart ++ ['E']) r3
    | _ => some (.jnum (String.mk (intPart ++ fracPart)), r2)

/-- JSON number literal: `-?(0|[1-9][0-9]*)(\.[0-9]+)?([eE][+-]?[0-9]+)?`,
returned as the raw literal (no leading zeros). -/
def parseNumV (cs : List Char) : Option (JVal × List Char) :=
  let (neg, cs1) : List Char × List Char :=
    match cs with
    | '-' :: r => (['-'], r)
    | _ => ([], cs)
  match cs1 with
  | [] => none
  | c :: r =>
    if c = '0' then
      parseNumFrac (neg ++ [c]) r
    else if c.isDigit then
      parseNumFrac (neg ++ [c] ++ r.takeWhile Char.isDigit) (r.dropWhile Char.isDigit)
    else none

mutual

/-- Recursive-descent JSON value parser (the grammar of `JSON.parse`), with
fuel: every recursive call consumes at least one input character first, so fuel
`2 * length + 2` can never be exhausted on any input. -/
def parseVal : Nat → List Char → Option (JVal × List Char)
  | 0, _ => none
  | fuel + 1, cs =>
    match skipWs cs with
    | 'n' :: 'u' :: 'l' :: 'l' :: rest => some (.jnull, rest)
    | 't' :: 'r' :: 'u' :: 'e' :: rest => some (.jbool true, rest)
    | 'f' :: 'a' :: 'l' :: 's' :: 'e' :: rest => some (.jbool false, rest)
    | '"' :: rest => (parseStrBody rest).map (fun p => (.jstr (String.mk p.1), p.2))
    | '[' :: rest =>
      (match skipWs rest with
       | ']' :: r2 => some (.jarr [], r2)
       | r2 => parseElems fuel r2 [])
    | '\x7b' :: rest =>
      (match skipWs rest with
       | '\x7d' :: r2 => some (.jobj [], r2)
       | r2 => parseFields fuel r2 [])
    | cs2 => parseNumV cs2

/-- Array elements after `[` (at least one): `value (, value)* ]`. -/
def parseElems : Nat → List Char → List JVal → Option (JVal × List Char)
  | 0, _, _ => none
  | fuel + 1, cs, acc =>
    match parseVal fuel cs with
    | none => none
    | some (v, rest) =>
      match skipWs rest with
      | ',' :: r2 => parseElems fuel r2 (acc ++ [v])
      | ']' :: r2 => some (.jarr (acc ++ [v]), r2)
      | _ => none

/-- Object members after an opening brace (at least one):
`string : value (, string : value)*` then a closing brace.  A duplicate key
overwrites the earlier value in place, as `JSON.parse` does. -/
def parseFields : Nat → List Char → List (String × JVal) → Option (JVal × List Char)
  | 0, _, _ => none
  | fuel + 1, cs, acc =>
    match skipWs cs with
    | '"' :: r =>
      (match parseStrBody r with
       | none => none
       | some (k, r2) =>
         match skipWs r2 with
         | ':' :: r3 =>
           (match parseVal fuel r3 with
            | none => none
            | some (v, r4) =>
              match skipWs r4 with
              | ',' :: r5 => parseFields fuel r5 (objSet acc (String.mk k) v)
              | '\x7d' :: r5 => some (.jobj (objSet acc (String.mk k) v), r5)
              | _ => none)
         | _ => none)
    | _ => none

end

/-- `JSON.parse` model: parse one value, allow trailing whitespace only;
`none` is a parse error (`safeParse` returns a non-null first tuple slot). -/
def jsonParse (s : String) : Option JVal :=
  match parseVal (2 * s.length + 2) s.toList with
  | some (v, rest) => if skipWs rest = [] then some v else none
  | none => none

/-- Escape one character as inside a `JSON.stringify` string literal. -/
def escapeChar (c : Char) : List Char :=
  if c = '"' then ['\\', '"']
  else if c = '\\' then ['\\', '\\']
  else if c = '\n' then ['\\', 'n']
  else if c = '\r' then ['\\', 'r']
  else if c = '\t' then ['\\', 't']
  else if c.toNat = 8 then ['\\', 'b']
  else if c.toNat = 12 then ['\\', 'f']
  else if c.toNat < 32 then
    ['\\', 'u', '0', '0',
     (if c.toNat / 16 < 10 then Char.ofNat (48 + c.toNat / 16) else Char.ofNat 97),
     (if c.toNat % 16 < 10 then Char.ofNat (48 + c.toNat % 16)
      else Char.ofNat (87 + c.toNat % 16))]
  else [c]

/-- A `JSON.stringify` string literal. -/
def quoteStr (s : String) : String :=
  String.mk ('"' :: (s.toList.flatMap escapeChar) ++ ['"'])

mutual

/-- `JSON.stringify` (as used through `json-stringify-safe` on cycle-free
values). -/
def jsonStringify : JVal → String
  | .jnull => "null"
  | .jbool true => "true"
  | .jbool false => "false"
  | .jnum raw => raw
  | .jstr s => quoteStr s
  | .jarr l => "[" ++ stringifyList l ++ "]"
  | .jobj fs => "\x7b" ++ stringifyFields fs ++ "\x7d"

def stringifyList : List JVal → String
  | [] => ""
  | [v] => jsonStringify v
  | v :: rest => jsonStringify v ++ "," ++ stringifyList rest

def stringifyFields : List (String × JVal) → String
  | [] => ""
  | [(k, v)] => quoteStr k ++ ":" ++ jsonStringify v
  | (k, v) :: rest => quoteStr k ++ ":" ++ jsonStringify v ++ "," ++ stringifyFields rest

end

/-- A JavaScript value offered to / produced by the error codec: either a
JSON-representable value (a bare string is `ofJ (.jstr s)`) or an Error
instance with its non-enumerable `name`/`message`/`stack` and its enumerable
own properties. -/
inductive JSValue where
  | ofJ (v : JVal)
  | errObj (name message stack : String) (props : List (String × JVal))
  deriving DecidableEq

/-- `serializeErrorObject(err)`: `{name, message, stack}` then every enumerable
own property copied over (later assignment overwrites in place). -/
def serializeErrorObject (name message stack : String) (props : List (String × JVal)) :
    List (String × JVal) :=
  props.foldl (fun data p => objSet data p.1 p.2)
    [("name", .jstr name), ("message", .jstr message), ("stack", .jstr stack)]

/-- `serializeError(err)`: strings pass through; Error instances are wrapped in
a single-key `$jsError` envelope and stringified; any other value is
stringified directly. -/
def serializeError : JSValue → String
  | .ofJ (.jstr s) => s
  | .ofJ v => jsonStringify v
  | .errObj name message stack props =>
    jsonStringify (.jobj [("$jsError", .jobj (serializeErrorObject name message stack props))])

/-- `Object.keys` on a parsed JSON value (string indices for strings, element
indices for arrays, property names for objects, nothing for primitives);
`Object.keys(null)` throws, which the caller handles separately. -/
def jsKeys : JVal → List String
  | .jobj fields => fields.map Prod.fst
  | .jarr elems => (List.range elems.length).map toString
  | .jstr s => (List.range s.length).map toString
  | _ => []

/-- `deserializeError(str)`: return `str` itself when JSON parsing fails; throw
(`none`) when it parses to `null` (`Object.keys(null)` raises a TypeError);
otherwise return the parsed value.  When the parsed object's single key is
`$jsError`, the source reads `data.name` — which is `undefined`, since the only
key is `$jsError` — so the `!name` guard always returns `data` unchanged and
the error-rebuilding code below that guard is unreachable. -/
def deserializeError (str : String) : Option JSValue :=
  match jsonParse str with
  | none => some (.ofJ (.jstr str))
  | some .jnull => none
  | some v =>
    if jsKeys v = ["$jsError"] then some (.ofJ v)
    else some (.ofJ v)

/-- C9 counterexample: the bare string `"0"` does not survive the round trip:
serialization passes it through unchanged, but deserialization parses it as
JSON and returns the number `0` instead of the string. -/
theorem deserialize_serialize_not_id :
    serializeError (.ofJ (.jstr "0")) = "0" ∧
      deserializeError (serializeError (.ofJ (.jstr "0"))) = some (.ofJ (.jnum "0")) ∧
      deserializeError (serializeError (.ofJ (.jstr "0"))) ≠ some (.ofJ (.jstr "0")) := by
  have h : deserializeError (serializeError (.ofJ (.jstr "0"))) = some (.ofJ (.jnum "0")) :=
    rfl
  refine ⟨rfl, h, by rw [h]; simp⟩

theorem parseStrBody_map_len (t : List Char) {c : Char} {p rest : List Char} {n : Nat}
    (ih : ∀ r : List Char, r.length ≤ n → ∀ p rest,
      parseStrBody r = some (p, rest) → p.length + 1 ≤ r.length)
    (ht : t.length ≤ n)
    (h : Option.map (fun q => (c :: q.1, q.2)) (parseStrBody t) = some (p, rest)) :
    p.length ≤ t.length := by
  cases hps : parseStrBody t with
  | none =>
    rw [hps] at h
    simp at h
  | some q =>
    obtain ⟨q1, q2⟩ := q
    rw [hps, Option.map_some', Option.some.injEq, Prod.mk.injEq] at h
    obtain ⟨h1, h2⟩ := h
    have hlen := ih t ht q1 q2 hps
    rw [← h1]
    simp only [List.length_cons]
    omega

set_option maxHeartbeats 1000000 in
theorem parseStrBody_len : ∀ (n : Nat) (r : List Char), r.length ≤ n → ∀ p rest,
    parseStrBody r = some (p, rest) → p.length + 1 ≤ r.length := by
  intro n
  induction n with
  | zero =>
    intro r hr p rest h
    rcases r with _ | ⟨c, t⟩
    · simp [parseStrBody] at h
    · simp at hr
  | succ n ih =>
    intro r hr p rest h
    rw [parseStrBody.eq_def] at h
    split at h
    · simp at h
    · cases h
      simp only [List.length_nil, List.length_cons]
      omega
    · split at h
      · rename_i rest0
        have hs := parseStrBody_map_len rest0 ih (by simp at hr; omega) h
        simp only [List.length_cons]
        omega
      · rename_i rest0
        have hs := parseStrBody_map_len rest0 ih (by simp at hr; omega) h
        simp only [List.length_cons]
        omega
      · rename_i rest0
        have hs := parseStrBody_map_len rest0 ih (by simp at hr; omega) h
        simp only [List.length_cons]
        omega
      · rename_i rest0
        have hs := parseStrBody_map_len rest0 ih (by simp at hr; omega) h
        simp only [List.length_cons]
        omega
      · rename_i rest0
        have hs := parseStrBody_map_len rest0 ih (by simp at hr; omega) h
        simp only [List.length_cons]
        omega
      · rename_i rest0
        have hs := parseStrBody_map_len rest0 ih (by simp at hr; omega) h
        simp only [List.length_cons]
        omega
      · rename_i rest0
        have hs := parseStrBody_map_len rest0 ih (by simp at hr; omega) h
        simp only [List.length_cons]
        omega
      · rename_i rest0
        have hs := parseStrBody_map_len rest0 ih (by simp at hr; omega) h
        simp only [List.length_cons]
        omega
      · rename_i h1c h2c h3c h4c rest0
        split at h
        · have hs := parseStrBody_map_len rest0 ih (by simp at hr; omega) h
          simp only [List.length_cons]
          omega
        · simp at h
      · simp at h
    · rename_i c0 rest0 hq hb
      split at h
      · simp at h
      · have hs := parseStrBody_map_len rest0 ih (by simp at hr; omega) h
        simp only [List.length_cons]
        omega

theorem parseNumExp_shape (pfx r3 : List Char) (v : JVal) (rest : List Char)
    (h : parseNumExp pfx r3 = some (v, rest)) : ∃ raw, v = .jnum raw := by
  unfold parseNumExp at h
  repeat' split at h
  all_goals first
    | (cases h; exact ⟨_, rfl⟩)
    | exact absurd h (by simp)

theorem parseNumFrac_shape (intPart r : List Char) (v : JVal) (rest : List Char)
    (h : parseNumFrac intPart r = some (v, rest)) : ∃ raw, v = .jnum raw := by
  unfold parseNumFrac at h
  repeat' split at h
  all_goals try unfold_let at h
  all_goals repeat' split at h
  all_goals first
    | exact Option.noConfusion h
    | (cases h; exact ⟨_, rfl⟩)
    | exact parseNumExp_shape _ _ _ _ h

theorem parseNumV_shape (cs : List Char) (v : JVal) (rest : List Char)
    (h : parseNumV cs = some (v, rest)) : ∃ raw, v = .jnum raw := by
  unfold parseNumV at h
  repeat' split at h
  all_goals try unfold_let at h
  all_goals repeat' split at h
  all_goals first
    | exact Option.noConfusion h
    | (cases h; exact ⟨_, rfl⟩)
    | exact parseNumFrac_shape _ _ _ _ h

theorem parseElems_shape : ∀ (fuel : Nat) (cs : List Char) (acc : List JVal)
    (v : JVal) (rest : List Char),
    parseElems fuel cs acc = some (v, rest) → ∃ l, v = .jarr l := by
  intro fuel
  induction fuel with
  | zero => intro cs acc v rest h; exact Option.noConfusion h
  | succ fuel ih =>
    intro cs acc v rest h
    unfold parseElems at h
    repeat' split at h
    all_goals first
      | exact Option.noConfusion h
      | (cases h; exact ⟨_, rfl⟩)
      | exact ih _ _ _ _ h

theorem parseFields_shape : ∀ (fuel : Nat) (cs : List Char) (acc : List (String × JVal))
    (v : JVal) (rest : List Char),
    parseFields fuel cs acc = some (v, rest) → ∃ l, v = .jobj l := by
  intro fuel
  induction fuel with
  | zero => intro cs acc v rest h; exact Option.noConfusion h
  | succ fuel ih =>
    intro cs acc v rest h
    unfold parseFields at h
    repeat' split at h
    all_goals first
      | exact Option.noConfusion h
      | (cases h; exact ⟨_, rfl⟩)
      | exact ih _ _ _ _ h

theorem skipWs_length_le (cs : List Char) : (skipWs cs).length ≤ cs.length := by
  unfold skipWs
  exact (List.dropWhile_sublist _).length_le

theorem parseVal_jstr : ∀ (fuel : Nat) (cs : List Char) (t : String) (rest : List Char),
    parseVal fuel cs = some (.jstr t, rest) → t.length + 2 ≤ cs.length := by
  intro fuel
  cases fuel with
  | zero => intro cs t rest h; exact Option.noConfusion h
  | succ fuel =>
    intro cs t rest h
    unfold parseVal at h
    split at h
    · simp at h
    · simp at h
    · simp at h
    · rename_i r heq
      cases hps : parseStrBody r with
      | none => rw [hps] at h; simp at h
      | some q =>
        obtain ⟨p, r2⟩ := q
        rw [hps, Option.map_some'] at h
        simp only [Option.some.injEq, Prod.mk.injEq] at h
        obtain ⟨ht, -⟩ := h
        injection ht with ht2
        have hlen : p.length + 1 ≤ r.length :=
          parseStrBody_len r.length r (le_refl _) p r2 hps
        have hsw : (skipWs cs).length ≤ cs.length := skipWs_length_le cs
        rw [heq] at hsw
        simp only [List.length_cons] at hsw
        have htl : t.length = p.length := by rw [← ht2]; rfl
        omega
    · rename_i rest0 heq
      split at h
      · simp at h
      · obtain ⟨l, hl⟩ := parseElems_shape _ _ _ _ _ h
        exact JVal.noConfusion hl
    · rename_i rest0 heq
      split at h
      · simp at h
      · obtain ⟨l, hl⟩ := parseFields_shape _ _ _ _ _ h
        exact JVal.noConfusion hl
    · obtain ⟨raw, hl⟩ := parseNumV_shape _ _ _ h
      exact JVal.noConfusion hl

theorem jsonParse_jstr_ne (s : String) (v : JVal) (h : jsonParse s = some v) :
    v ≠ .jstr s := by
  intro hv
  subst hv
  unfold jsonParse at h
  split at h
  · rename_i v0 rest hpv
    split at h
    · cases h
      have hle := parseVal_jstr _ _ _ _ hpv
      have htl : s.toList.length = s.length := rfl
      omega
    · exact Option.noConfusion h
  · exact Option.noConfusion h

/-- C9 amended: a bare string used as an application-error payload is preserved
as-is through serialize/deserialize exactly when its contents are not valid
JSON: a string whose contents parse as JSON comes back as the parsed value,
which is never the original bare string (a parsed string literal is strictly
shorter than its quoted source), and a string whose contents parse as the JSON
value `null` makes deserialization throw (`Object.keys(null)` raises). -/
theorem deserialize_serialize_charact (s : String) :
    (deserializeError (serializeError (.ofJ (.jstr s))) = some (.ofJ (.jstr s)) ↔
        jsonParse s = none) ∧
      (∀ v : JVal, jsonParse s = some v → v ≠ JVal.jnull →
        deserializeError (serializeError (.ofJ (.jstr s))) = some (.ofJ v) ∧
          v ≠ JVal.jstr s) ∧
      (jsonParse s = some JVal.jnull →
        deserializeError (serializeError (.ofJ (.jstr s))) = none) := by
  have hser : serializeError (.ofJ (.jstr s)) = s := rfl
  have hnull : jsonParse s = some JVal.jnull → deserializeError s = none := by
    intro hjp
    unfold deserializeError
    rw [hjp]
  have hnn : ∀ v : JVal, jsonParse s = some v → v ≠ JVal.jnull →
      deserializeError s = some (.ofJ v) := by
    intro v hjp hne
    unfold deserializeError
    rw [hjp]
    split
    · rename_i heq
      exact Option.noConfusion heq
    · rename_i heq
      injection heq with h1
      exact absurd h1 hne
    · rename_i w hwne heq
      injection heq with h1
      subst h1
      split <;> rfl
  refine ⟨⟨?_, ?_⟩, ?_, ?_⟩
  · intro h
    rw [hser] at h
    cases hjp : jsonParse s with
    | none => rfl
    | some v =>
      by_cases hne : v = JVal.jnull
      · subst hne
        rw [hnull hjp] at h
        exact Option.noConfusion h
      · rw [hnn v hjp hne] at h
        injection h with h1
        injection h1 with h2
        exact absurd h2 (jsonParse_jstr_ne s v hjp)
  · intro h
    simp [serializeError, deserializeError, h]
  · intro v hjp hne
    rw [hser]
    exact ⟨hnn v hjp hne, jsonParse_jstr_ne s v hjp⟩
  · intro hjp
    rw [hser]
    exact hnull hjp

/-- Witness: the contents of `"0"` parse as the JSON number 0, which comes back
instead of the string, and the contents of `"null"` parse as `null`, on which
deserialization throws. -/
theorem deserialize_serialize_charact_witness :
    (deserializeError (serializeError (.ofJ (.jstr "0"))) = some (.ofJ (.jnum "0")) ∧
        JVal.jnum "0" ≠ JVal.jstr "0") ∧
      deserializeError (serializeError (.ofJ (.jstr "null"))) = none :=
  ⟨(deserialize_serialize_charact "0").2.1 (.jnum "0") rfl (by simp),
    (deserialize_serialize_charact "null").2.2 rfl⟩

/-! ## C1: the frame codec

Frame header codec from the frame section of src/node/v2/init.js
(`Frame.read`, `Frame.prototype.write`); init bodies from src/v2/init.js;
call bodies from src/v2/call.js.

Modelled from the spec: the byte-level primitive library (`lib/read`,
`lib/write`), the call-header codec (`v2/header`: `nh:1 (hk~1 hv~1)(nh)`) and
the checksum codec (`v2/checksum`: `csumtype:1 (csum:4)(0,1)`, `update` over
the concatenated args, `verify` rejecting any mismatch, algorithm ids
`none=0`, `crc32=1`, `farmhash32=2` with the algorithms themselves pluggable)
are not under src/; they are modelled from the spec sections 4.3 and 6.
The checksum algorithm is a parameter `algo : Nat → Bytes → Nat` mapping an
algorithm id and the concatenated args to a 32-bit value. -/

/-- Init body (src/v2/init.js): `version:2 (key~2 value~2)(2)`. -/
structure InitBody where
  version : Nat
  hostPort : Bytes
  processName : Bytes
  deriving DecidableEq

/-- The ASCII bytes of `host_port`. -/
def hostPortKey : Bytes := [104, 111, 115, 116, 95, 112, 111, 114, 116]

/-- The ASCII bytes of `process_name`. -/
def processNameKey : Bytes := [112, 114, 111, 99, 101, 115, 115, 95, 110, 97, 109, 101]

/-- `InitRequest.prototype.write`: version, then the `host_port` and
`process_name` pairs in that order (`InitResponse` shares this writer). -/
def writeInitBody (b : InitBody) : Bytes :=
  be16 b.version ++ writeBuf2 hostPortKey ++ writeBuf2 b.hostPort ++
    writeBuf2 processNameKey ++ writeBuf2 b.processName

/-- `read.pair2`: two length-prefixed byte strings. -/
def readPair2 (bs : Bytes) : Option ((Bytes × Bytes) × Bytes) :=
  match readBuf2 bs with
  | none => none
  | some (k, r1) =>
    match readBuf2 r1 with
    | none => none
    | some (v, r2) => some ((k, v), r2)

/-- JavaScript truthiness of a maybe-assigned string variable: `undefined` and
the empty string are falsy (the `if (hostPort)` duplicate guard). -/
def jsTruthy : Option Bytes → Bool
  | none => false
  | some v => !v.isEmpty

/-- The key-dispatch loop of `InitRequest.read`: fails on a duplicate truthy
key or an unknown key. -/
def initLoop : List (Bytes × Bytes) → Option Bytes → Option Bytes →
    Option (Option Bytes × Option Bytes)
  | [], hp, pn => some (hp, pn)
  | (k, v) :: rest, hp, pn =>
    if k = hostPortKey then
      if jsTruthy hp then none else initLoop rest (some v) pn
    else if k = processNameKey then
      if jsTruthy pn then none else initLoop rest hp (some v)
    else none

/-- `InitRequest.read` (shared by `InitResponse.read`): version, two pairs,
key dispatch.  The source would construct a body with `undefined` fields when
a required key is absent; such bodies are outside the legal value space and
unreachable from the writer, so they are mapped to `none` here. -/
def readInitBody (bs : Bytes) : Option (InitBody × Bytes) :=
  match readU16 bs with
  | none => none
  | some (version, r1) =>
    match readPair2 r1 with
    | none => none
    | some (p1, r2) =>
      match readPair2 r2 with
      | none => none
      | some (p2, r3) =>
        match initLoop [p1, p2] none none with
        | some (some hp, some pn) => some (⟨version, hp, pn⟩, r3)
        | _ => none

/-- Call-header writer (modelled from the spec: `nh:1 (hk~1 hv~1)(nh)`),
insertion order of the headers object. -/
def writeCallHdrs (hs : List (Bytes × Bytes)) : Bytes :=
  hs.length :: hs.flatMap (fun p => (p.1.length :: p.1) ++ (p.2.length :: p.2))

/-- Read a 1-byte length prefix then that many bytes. -/
def readBuf1 (bs : Bytes) : Option (Bytes × Bytes) :=
  match readU8 bs with
  | none => none
  | some (n, rest) => readN n rest

/-- Read `n` call-header pairs. -/
def readHdrPairs : Nat → Bytes → Option (List (Bytes × Bytes) × Bytes)
  | 0, bs => some ([], bs)
  | n + 1, bs =>
    match readBuf1 bs with
    | none => none
    | some (k, r1) =>
      match readBuf1 r1 with
      | none => none
      | some (v, r2) =>
        match readHdrPairs n r2 with
        | none => none
        | some (rest, r3) => some ((k, v) :: rest, r3)

/-- Call-header reader (modelled from the spec): `nh:1` then `nh` pairs. -/
def readCallHdrs (bs : Bytes) : Option (List (Bytes × Bytes) × Bytes) :=
  match readU8 bs with
  | none => none
  | some (nh, rest) => readHdrPairs nh rest

/-- Checksum writer (modelled from the spec): `csumtype:1`, then the 32-bit
checksum over the concatenated args iff the type is not none (0). -/
def writeCsum (algo : Nat → Bytes → Nat) (t : Nat) (a1 a2 a3 : Bytes) : Bytes :=
  t :: (if t = 0 then [] else be32 (algo t (a1 ++ a2 ++ a3)))

/-- Checksum reader (modelled from the spec): type byte, then the value iff
the type is not none. -/
def readCsum (bs : Bytes) : Option ((Nat × Nat) × Bytes) :=
  match readU8 bs with
  | none => none
  | some (t, r1) =>
    if t = 0 then some ((t, 0), r1)
    else
      match readU32 r1 with
      | none => none
      | some (val, r2) => some ((t, val), r2)

/-- `csum.verify(arg1, arg2, arg3)` (modelled from the spec): nothing to check
for checksum type none, otherwise the carried value must equal the computed
checksum of the concatenated args. -/
def csumVerify (algo : Nat → Bytes → Nat) (t val : Nat) (a1 a2 a3 : Bytes) : Bool :=
  t = 0 || val == algo t (a1 ++ a2 ++ a3)

/-- CallRequest body (src/v2/call.js):
`ttl:4 tracing:24 service~2 nh:1 (hk~1 hv~1)(nh) arg1~2 arg2~2 arg3~2 csumtype:1 (csum:4)(0,1)`.
The checksum value itself is derived during write (`csum.update`) and verified
on read, so the body carries only the checksum type. -/
structure CallReqBody where
  ttl : Nat
  tracing : Bytes
  service : Bytes
  headers : List (Bytes × Bytes)
  arg1 : Bytes
  arg2 : Bytes
  arg3 : Bytes
  csumType : Nat
  deriving DecidableEq

/-- `CallRequest.prototype.write`. -/
def writeCallReqBody (algo : Nat → Bytes → Nat) (b : CallReqBody) : Bytes :=
  be32 b.ttl ++ b.tracing ++ writeBuf2 b.service ++ writeCallHdrs b.headers ++
    writeBuf2 b.arg1 ++ writeBuf2 b.arg2 ++ writeBuf2 b.arg3 ++
    writeCsum algo b.csumType b.arg1 b.arg2 b.arg3

/-- `CallRequest.read`: the fields in grammar order, then checksum
verification. -/
def readCallReqBody (algo : Nat → Bytes → Nat) (bs : Bytes) :
    Option (CallReqBody × Bytes) :=
  match readU32 bs with
  | none => none
  | some (ttl, r1) =>
    match readN 24 r1 with
    | none => none
    | some (tracing, r2) =>
      match readBuf2 r2 with
      | none => none
      | some (service, r3) =>
        match readCallHdrs r3 with
        | none => none
        | some (headers, r4) =>
          match readBuf2 r4 with
          | none => none
          | some (a1, r5) =>
            match readBuf2 r5 with
            | none => none
            | some (a2, r6) =>
              match readBuf2 r6 with
              | none => none
              | some (a3, r7) =>
                match readCsum r7 with
                | none => none
                | some ((t, val), r8) =>
                  if csumVerify algo t val a1 a2 a3 then
                    some (⟨ttl, tracing, service, headers, a1, a2, a3, t⟩, r8)
                  else none

/-- CallResponse body (src/v2/call.js):
`code:1 nh:1 (hk~1 hv~1)(nh) arg1~2 arg2~2 arg3~2 csumtype:1 (csum:4)(0,1)`. -/
structure CallResBody where
  code : Nat
  headers : List (Bytes × Bytes)
  arg1 : Bytes
  arg2 : Bytes
  arg3 : Bytes
  csumType : Nat
  deriving DecidableEq

/-- `CallResponse.prototype.write`. -/
def writeCallResBody (algo : Nat → Bytes → Nat) (b : CallResBody) : Bytes :=
  b.code :: (writeCallHdrs b.headers ++ writeBuf2 b.arg1 ++ writeBuf2 b.arg2 ++
    writeBuf2 b.arg3 ++ writeCsum algo b.csumType b.arg1 b.arg2 b.arg3)

/-- `CallResponse.read`. -/
def readCallResBody (algo : Nat → Bytes → Nat) (bs : Bytes) :
    Option (CallResBody × Bytes) :=
  match readU8 bs with
  | none => none
  | some (code, r1) =>
    match readCallHdrs r1 with
    | none => none
    | some (headers, r2) =>
      match readBuf2 r2 with
      | none => none
      | some (a1, r3) =>
        match readBuf2 r3 with
        | none => none
        | some (a2, r4) =>
          match readBuf2 r4 with
          | none => none
          | some (a3, r5) =>
            match readCsum r5 with
            | none => none
            | some ((t, val), r6) =>
              if csumVerify algo t val a1 a2 a3 then
                some (⟨code, headers, a1, a2, a3, t⟩, r6)
              else none

/-- A typed frame body.  `Frame.Types` maps type codes `0x01`/`0x02` to the
init codecs and `0x03`/`0x04` to the call codecs. -/
inductive Body where
  | initReq (b : InitBody)
  | initRes (b : InitBody)
  | callReq (b : CallReqBody)
  | callRes (b : CallResBody)
  deriving DecidableEq

/-- `body.type`: the wire type code of a body. -/
def Body.typeCode : Body → Nat
  | .initReq _ => 0x01
  | .initRes _ => 0x02
  | .callReq _ => 0x03
  | .callRes _ => 0x04

/-- `body.write()`. -/
def writeBody (algo : Nat → Bytes → Nat) : Body → Bytes
  | .initReq b => writeInitBody b
  | .initRes b => writeInitBody b
  | .callReq b => writeCallReqBody algo b
  | .callRes b => writeCallResBody algo b

/-- A frame: `id`, `flags` and a typed body (src/node/v2/init.js frame
section). -/
structure Frame where
  id : Nat
  flags : Nat
  body : Body
  deriving DecidableEq

/-- `Frame.prototype.write` / `toBuffer`:
`size:4 id:4 type:1 flags:1 reserved:6` then the body, with
`size = 16 + body.length`. -/
def encodeFrame (algo : Nat → Bytes → Nat) (f : Frame) : Bytes :=
  let body := writeBody algo f.body
  be32 (16 + body.length) ++ be32 f.id ++ [f.body.typeCode, f.flags] ++
    List.replicate 6 0 ++ body

/-- The `Frame.Types[type]` body-codec lookup plus `BodyType.read`. -/
def readBodyByType (algo : Nat → Bytes → Nat) (t : Nat) (bs : Bytes) :
    Option (Body × Bytes) :=
  if t = 0x01 then (readInitBody bs).map (fun p => (.initReq p.1, p.2))
  else if t = 0x02 then (readInitBody bs).map (fun p => (.initRes p.1, p.2))
  else if t = 0x03 then (readCallReqBody algo bs).map (fun p => (.callReq p.1, p.2))
  else if t = 0x04 then (readCallResBody algo bs).map (fun p => (.callRes p.1, p.2))
  else none

/-- `Frame.read`: header fields, body-type lookup (`InvalidFrameTypeError` on
unknown type), availability check for `size - 16` body bytes, body decode, and
the `ExtraFrameDataError` check that the body consumed all declared bytes.
Returns the decoded frame and the bytes following the declared frame extent. -/
def decodeFrame (algo : Nat → Bytes → Nat) (bs : Bytes) : Option (Frame × Bytes) :=
  match readU32 bs with
  | none => none
  | some (size, r1) =>
    match readU32 r1 with
    | none => none
    | some (id, r2) =>
      match readU8 r2 with
      | none => none
      | some (t, r3) =>
        match readU8 r3 with
        | none => none
        | some (flags, r4) =>
          match readN 6 r4 with
          | none => none
          | some (_reserved, r5) =>
            if r5.length < size - 16 then none
            else
              match readBodyByType algo t r5 with
              | none => none
              | some (body, r6) =>
                if r5.length - r6.length < size - 16 then none
                else some (⟨id, flags, body⟩, r6)

/-- Legal value space of an init body: a 16-bit version and length-prefixable
byte strings. -/
def legalInit (b : InitBody) : Prop :=
  b.version < 2 ^ 16 ∧ b.hostPort.length < 2 ^ 16 ∧ b.processName.length < 2 ^ 16 ∧
    bytesOk b.hostPort ∧ bytesOk b.processName

/-- Legal value space of call headers: a 1-byte count and 1-byte-prefixable
keys and values. -/
def legalHdrs (hs : List (Bytes × Bytes)) : Prop :=
  hs.length < 2 ^ 8 ∧
    ∀ p ∈ hs, p.1.length < 2 ^ 8 ∧ p.2.length < 2 ^ 8 ∧ bytesOk p.1 ∧ bytesOk p.2

/-- The legal checksum algorithm ids: `none=0`, `crc32=1`, `farmhash32=2`. -/
def legalCsumType (t : Nat) : Prop := t = 0 ∨ t = 1 ∨ t = 2

/-- Legal value space of a CallRequest body. -/
def legalCallReq (b : CallReqBody) : Prop :=
  b.ttl < 2 ^ 32 ∧ b.tracing.length = 24 ∧ bytesOk b.tracing ∧
    b.service.length < 2 ^ 16 ∧ bytesOk b.service ∧ legalHdrs b.headers ∧
    b.arg1.length < 2 ^ 16 ∧ b.arg2.length < 2 ^ 16 ∧ b.arg3.length < 2 ^ 16 ∧
    bytesOk b.arg1 ∧ bytesOk b.arg2 ∧ bytesOk b.arg3 ∧ legalCsumType b.csumType

/-- Legal value space of a CallResponse body. -/
def legalCallRes (b : CallResBody) : Prop :=
  b.code < 2 ^ 8 ∧ legalHdrs b.headers ∧
    b.arg1.length < 2 ^ 16 ∧ b.arg2.length < 2 ^ 16 ∧ b.arg3.length < 2 ^ 16 ∧
    bytesOk b.arg1 ∧ bytesOk b.arg2 ∧ bytesOk b.arg3 ∧ legalCsumType b.csumType

/-- Legal value space of a body. -/
def legalBody : Body → Prop
  | .initReq b => legalInit b
  | .initRes b => legalInit b
  | .callReq b => legalCallReq b
  | .callRes b => legalCallRes b

/-- Legal value space of a frame: 32-bit id, 8-bit flags, legal body. -/
def legalFrame (f : Frame) : Prop :=
  f.id < 2 ^ 32 ∧ f.flags < 2 ^ 8 ∧ legalBody f.body

instance (b : InitBody) : Decidable (legalInit b) := by
  unfold legalInit
  infer_instance

instance (hs : List (Bytes × Bytes)) : Decidable (legalHdrs hs) := by
  unfold legalHdrs
  infer_instance

instance (t : Nat) : Decidable (legalCsumType t) := by
  unfold legalCsumType
  infer_instance

instance (b : CallReqBody) : Decidable (legalCallReq b) := by
  unfold legalCallReq
  infer_instance

instance (b : CallResBody) : Decidable (legalCallRes b) := by
  unfold legalCallRes
  infer_instance

instance (b : Body) : Decidable (legalBody b) := by
  cases b <;> simp only [legalBody] <;> infer_instance

instance (f : Frame) : Decidable (legalFrame f) := by
  unfold legalFrame
  infer_instance

theorem readBuf1_pfx (b rest : Bytes) : readBuf1 (b.length :: (b ++ rest)) = some (b, rest) := by
  simpa [readBuf1, readU8] using readN_exact b rest

theorem readHdrPairs_flat (hs : List (Bytes × Bytes)) (rest : Bytes) :
    readHdrPairs hs.length
      (hs.flatMap (fun p => p.1.length :: (p.1 ++ (p.2.length :: p.2))) ++ rest)
      = some (hs, rest) := by
  induction hs with
  | nil => simp [readHdrPairs]
  | cons p t ih =>
    simp only [List.flatMap_cons, List.length_cons, List.append_assoc, List.cons_append,
      readHdrPairs, readBuf1_pfx, ih]

theorem readCallHdrs_write (hs : List (Bytes × Bytes)) (rest : Bytes) :
    readCallHdrs (writeCallHdrs hs ++ rest) = some (hs, rest) := by
  simpa [writeCallHdrs, readCallHdrs, readU8] using readHdrPairs_flat hs rest

theorem readCsum_writeCsum (algo : Nat → Bytes → Nat)
    (halgo : ∀ t bs, algo t bs < 2 ^ 32) (t : Nat) (a1 a2 a3 rest : Bytes) :
    readCsum (writeCsum algo t a1 a2 a3 ++ rest)
      = some ((t, if t = 0 then 0 else algo t (a1 ++ (a2 ++ a3))), rest) := by
  by_cases ht : t = 0 <;>
    simp [writeCsum, readCsum, ht, readU8, List.append_assoc,
      readU32_be32 _ (halgo t (a1 ++ (a2 ++ a3)))]

theorem csumVerify_writeCsum (algo : Nat → Bytes → Nat) (t : Nat) (a1 a2 a3 : Bytes) :
    csumVerify algo t (if t = 0 then 0 else algo t (a1 ++ (a2 ++ a3))) a1 a2 a3 = true := by
  by_cases ht : t = 0 <;> simp [csumVerify, ht, List.append_assoc]

theorem readInit_write (b : InitBody) (h : legalInit b) (rest : Bytes) :
    readInitBody (writeInitBody b ++ rest) = some (b, rest) := by
  obtain ⟨h1, h2, h3, -, -⟩ := h
  simp only [writeInitBody, List.append_assoc, readInitBody, readU16_be16 _ h1, readPair2,
    readBuf2_writeBuf2 hostPortKey (by decide), readBuf2_writeBuf2 _ h2,
    readBuf2_writeBuf2 processNameKey (by decide), readBuf2_writeBuf2 _ h3]
  simp [initLoop, hostPortKey, processNameKey, jsTruthy]

theorem readCallReq_write (algo : Nat → Bytes → Nat)
    (halgo : ∀ t bs, algo t bs < 2 ^ 32) (b : CallReqBody) (h : legalCallReq b)
    (rest : Bytes) :
    readCallReqBody algo (writeCallReqBody algo b ++ rest) = some (b, rest) := by
  obtain ⟨h1, h2, -, h4, -, -, h7, h8, h9, -⟩ := h
  simp only [writeCallReqBody, List.append_assoc, readCallReqBody, readU32_be32 _ h1]
  rw [show (24 : Nat) = b.tracing.length from h2.symm, readN_exact]
  simp only [readBuf2_writeBuf2 _ h4, readCallHdrs_write, readBuf2_writeBuf2 _ h7,
    readBuf2_writeBuf2 _ h8, readBuf2_writeBuf2 _ h9,
    readCsum_writeCsum algo halgo, csumVerify_writeCsum, if_true]

theorem readCallRes_write (algo : Nat → Bytes → Nat)
    (halgo : ∀ t bs, algo t bs < 2 ^ 32) (b : CallResBody) (h : legalCallRes b)
    (rest : Bytes) :
    readCallResBody algo (writeCallResBody algo b ++ rest) = some (b, rest) := by
  obtain ⟨-, -, h3, h4, h5, -⟩ := h
  simp only [writeCallResBody, List.cons_append, List.append_assoc, readCallResBody, readU8,
    readCallHdrs_write, readBuf2_writeBuf2 _ h3, readBuf2_writeBuf2 _ h4,
    readBuf2_writeBuf2 _ h5, readCsum_writeCsum algo halgo, csumVerify_writeCsum, if_true]

theorem len_writeBuf2 (b : Bytes) : (writeBuf2 b).length = 2 + b.length := by
  simp [writeBuf2, be16]
  omega

theorem len_writeCallHdrs (hs : List (Bytes × Bytes))
    (h : ∀ p ∈ hs, p.1.length < 2 ^ 8 ∧ p.2.length < 2 ^ 8) :
    (writeCallHdrs hs).length ≤ 1 + 512 * hs.length := by
  simp only [writeCallHdrs, List.length_cons]
  induction hs with
  | nil => simp
  | cons p t ih =>
    have hp := h p (by simp)
    have ht := ih (fun q hq => h q (by simp [hq]))
    simp only [List.flatMap_cons, List.length_append, List.length_cons] at *
    omega

theorem len_writeCsum (algo : Nat → Bytes → Nat) (t : Nat) (a1 a2 a3 : Bytes) :
    (writeCsum algo t a1 a2 a3).length ≤ 5 := by
  by_cases ht : t = 0 <;> simp [writeCsum, ht, be32]

theorem len_writeBody (algo : Nat → Bytes → Nat) (body : Body) (h : legalBody body) :
    (writeBody algo body).length < 2 ^ 32 - 16 := by
  cases body with
  | initReq b | initRes b =>
    obtain ⟨-, h2, h3, -, -⟩ := h
    simp only [writeBody, writeInitBody, List.length_append, len_writeBuf2, be16,
      List.length_cons, List.length_nil]
    simp only [hostPortKey, processNameKey, List.length_cons, List.length_nil]
    omega
  | callReq b =>
    obtain ⟨-, h2, -, h4, -, ⟨hn, hkv⟩, h7, h8, h9, -⟩ := h
    have hh := len_writeCallHdrs b.headers (fun p hp => ⟨(hkv p hp).1, (hkv p hp).2.1⟩)
    have hc := len_writeCsum algo b.csumType b.arg1 b.arg2 b.arg3
    simp only [writeBody, writeCallReqBody, List.length_append, len_writeBuf2, be32,
      List.length_cons, List.length_nil] at *
    omega
  | callRes b =>
    obtain ⟨-, ⟨hn, hkv⟩, h3, h4, h5, -⟩ := h
    have hh := len_writeCallHdrs b.headers (fun p hp => ⟨(hkv p hp).1, (hkv p hp).2.1⟩)
    have hc := len_writeCsum algo b.csumType b.arg1 b.arg2 b.arg3
    simp only [writeBody, writeCallResBody, List.length_append, len_writeBuf2,
      List.length_cons] at *
    omega

theorem readN_replicate (rest : Bytes) :
    readN 6 (List.replicate 6 0 ++ rest) = some (List.replicate 6 0, rest) := by
  simpa using readN_exact (List.replicate 6 0) rest

theorem decode_encode_frame (algo : Nat → Bytes → Nat)
    (halgo : ∀ t bs, algo t bs < 2 ^ 32) (f : Frame) (hf : legalFrame f) (extra : Bytes) :
    decodeFrame algo (encodeFrame algo f ++ extra)
      = some (f, extra) := by
  obtain ⟨hid, -, hbody⟩ := hf
  have hsize : 16 + (writeBody algo f.body).length < 2 ^ 32 := by
    have := len_writeBody algo f.body hbody
    omega
  simp only [encodeFrame, List.append_assoc, List.cons_append, List.nil_append, decodeFrame,
    readU32_be32 _ hsize, readU32_be32 _ hid, readU8, readN_replicate,
    Nat.add_sub_cancel_left, lt_irrefl, if_false, Nat.sub_self]
  cases hb : f.body with
  | initReq b =>
    rw [hb] at hbody
    simp [readBodyByType, Body.typeCode, writeBody, readInit_write b hbody extra,
      ← hb]
  | initRes b =>
    rw [hb] at hbody
    simp [readBodyByType, Body.typeCode, writeBody, readInit_write b hbody extra, ← hb]
  | callReq b =>
    rw [hb] at hbody
    simp [readBodyByType, Body.typeCode, writeBody,
      readCallReq_write algo halgo b hbody extra, ← hb]
  | callRes b =>
    rw [hb] at hbody
    simp [readBodyByType, Body.typeCode, writeBody,
      readCallRes_write algo halgo b hbody extra, ← hb]

/-- C1: for every frame (init request/response, CallRequest, CallResponse)
whose fields lie in the legal value space and for any legal checksum type
(`algo` is the pluggable 32-bit checksum family), decoding the encoded byte
form yields the original frame with nothing left over, and the encoding is the
16-byte header — whose leading `size:4` field is `16 + length of the encoded
body` — followed by the encoded body. -/
theorem frame_roundtrip (algo : Nat → Bytes → Nat)
    (halgo : ∀ t bs, algo t bs < 2 ^ 32) (f : Frame) (hf : legalFrame f) :
    decodeFrame algo (encodeFrame algo f) = some (f, []) ∧
      (encodeFrame algo f).length = 16 + (writeBody algo f.body).length ∧
      (encodeFrame algo f).take 4 = be32 (16 + (writeBody algo f.body).length) := by
  refine ⟨?_, ?_, ?_⟩
  · have h := decode_encode_frame algo halgo f hf []
    rwa [List.append_nil] at h
  · simp [encodeFrame, be32]
    omega
  · have h4 : (4 : Nat) ≤ (be32 (16 + (writeBody algo f.body).length)).length := by
      simp [be32]
    simp [encodeFrame, List.take_append_of_le_length h4, be32]

/-- Witness for C1 at a concrete CallRequest frame (checksum family: sum of
bytes mod `2 ^ 32`, id `farmhash32 = 2`), plus concrete init-request and
call-response frames through the same round trip. -/
theorem frame_roundtrip_witness :
    decodeFrame (fun _ bs => bs.sum % 2 ^ 32)
        (encodeFrame (fun _ bs => bs.sum % 2 ^ 32)
          ⟨42, 0, .callReq ⟨255, List.replicate 24 7, [115], [([104], [118])],
            [101, 99, 104, 111], [104], [98, 111, 100, 121], 2⟩⟩)
      = some (⟨42, 0, .callReq ⟨255, List.replicate 24 7, [115], [([104], [118])],
          [101, 99, 104, 111], [104], [98, 111, 100, 121], 2⟩⟩, []) := by
  have h := frame_roundtrip (fun _ bs => bs.sum % 2 ^ 32)
    (fun t bs => Nat.mod_lt _ (by norm_num))
    ⟨42, 0, .callReq ⟨255, List.replicate 24 7, [115], [([104], [118])],
      [101, 99, 104, 111], [104], [98, 111, 100, 121], 2⟩⟩
    (by decide)
  exact h.1

/-! ## The connection state machine (src/index.js)

State visible to the claims: `remoteName` (filled by init), `closing`, the
sweeper bookkeeping (`lastTimeoutTime`), the operation tables and their
pending counters, and the frame-id allocator state.  Side effects (sink
invocations, event emissions, socket destruction, timer re-arming) are
returned as an ordered `ConnEvent` list. -/

/-- Kind tag of the typed errors built by `errorForCode` for non-OK,
non-AppException response codes. -/
inductive TErrKind where
  | timeoutK
  | cancelledK
  | busyK
  | socketErrNoRetriesK
  | socketErrK
  | invalidCodeK (code : Nat)
  deriving DecidableEq

/-- The error value `errorForCode` hands to an operation callback: for
`AppException` the deserialized payload itself, otherwise a typed error
carrying the deserialized payload as `.passedError`. -/
inductive RespErr where
  | appErr (passed : JSValue)
  | typed (kind : TErrKind) (passed : JSValue)
  deriving DecidableEq

/-- The argument a completed operation's callback receives in error position. -/
inductive SinkErr where
  | resetE (msg : String)
  | timedOutE
  | respE (e : Option RespErr)
  deriving DecidableEq

/-- Observable side effects of the connection handlers, in emission order. -/
inductive ConnEvent where
  | resetEmit
  | socketCloseEmit (err : SinkErr)
  | sinkCall (id : Nat) (err : SinkErr)
  | destroySocket
  | rearmTimer
  | endpointMissingEmit (name : Bytes)
  | endpointEmit (name : Bytes)
  | scheduledHandler (id : Nat)
  deriving DecidableEq

/-- An outbound operation record (`TChannelClientOp`): `start`, the
`timeout` taken from the request body's ttl, and the `timedOut` flag. -/
structure OutOp where
  start : Nat
  timeout : Nat
  timedOut : Bool
  deriving DecidableEq

/-- An inbound operation record (`TChannelServerOp`), reduced to the field the
claims observe. -/
structure InOp where
  start : Nat
  deriving DecidableEq

/-- Connection state (`TChannelConnection` fields). -/
structure ConnState where
  remoteName : Option String
  closing : Bool
  timerActive : Bool
  lastTimeoutTime : Nat
  lastSentFrameId : Nat
  inOps : List (Nat × InOp)
  outOps : List (Nat × OutOp)
  inPending : Int
  outPending : Int
  deriving DecidableEq

/-- `delete obj[k]` on a string-keyed table with unique keys. -/
def eraseKey {κ ν : Type} [DecidableEq κ] : List (κ × ν) → κ → List (κ × ν)
  | [], _ => []
  | (k0, v0) :: rest, k => if k0 = k then rest else (k0, v0) :: eraseKey rest k

/-- `TChannelConnection.prototype.resetAll(err)`: no-op when already closing;
otherwise set `closing`, clear the timer, emit `reset`, drop every inbound op
without invoking anything, invoke every outbound op's callback with `err`,
zero the pending counters, and emit `socketClose`. -/
def resetAll (s : ConnState) (err : SinkErr) : ConnState × List ConnEvent :=
  if s.closing then (s, [])
  else
    ({ s with
        closing := true, timerActive := false, inOps := ([]), outOps := ([]),
        inPending := 0, outPending := 0 },
      ConnEvent.resetEmit ::
        (s.outOps.map (fun p => ConnEvent.sinkCall p.1 err) ++
          [ConnEvent.socketCloseEmit err]))

/-- The channel's peer table: `host:port` to the ordered connection sequence
(connections as numeric identities); a missing entry behaves as the empty
sequence. -/
def Peers : Type := String → List Nat

/-- `TChannel.prototype.removePeer(hostPort, conn)`: splice out the first
occurrence, if any. -/
def removePeer (peers : Peers) (hostPort : String) (connId : Nat) : Peers :=
  fun h => if h = hostPort then (peers hostPort).erase connId else peers h

/-- `TChannel.prototype.setPeer(hostPort, conn)`: outbound connections are
unshifted onto the head, inbound pushed on the tail. -/
def setPeer (peers : Peers) (hostPort : String) (connId : Nat) (outDir : Bool) : Peers :=
  fun h =>
    if h = hostPort then
      if outDir then connId :: peers hostPort else peers hostPort ++ [connId]
    else peers h

/-- `TChannel.prototype.getPeer(hostPort)`: the head of the sequence. -/
def getPeer (peers : Peers) (hostPort : String) : Option Nat :=
  (peers hostPort).head?

/-- `resetAll` composed with the channel-side `once('reset')` listener that
`addPeer` installs: when the reset event fires, the connection is removed from
the peer sequence it was registered under. -/
def resetConn (peers : Peers) (hostPort : String) (connId : Nat) (s : ConnState)
    (err : SinkErr) : Peers × ConnState × List ConnEvent :=
  let r := resetAll s err
  (if ConnEvent.resetEmit ∈ r.2 then removePeer peers hostPort connId else peers,
    r.1, r.2)

/-- `TChannelConnection.prototype.errorForCode(code, message)`: `null` for OK;
otherwise deserialize the payload (outer `none` models the deserializer
throwing), return it directly for `AppException`, else wrap it in the typed
error for the code. -/
def errorForCode (code : Nat) (message : String) : Option (Option RespErr) :=
  if code = 0 then some none
  else
    match deserializeError message with
    | none => none
    | some passed =>
      if code = 6 then some (some (.appErr passed))
      else if code = 1 then some (some (.typed .timeoutK passed))
      else if code = 2 then some (some (.typed .cancelledK passed))
      else if code = 3 then some (some (.typed .busyK passed))
      else if code = 4 then some (some (.typed .socketErrNoRetriesK passed))
      else if code = 5 then some (some (.typed .socketErrK passed))
      else some (some (.typed (.invalidCodeK code) passed))

/-- `TChannelConnection.prototype.completeOutOp(id, err, arg1, arg2)`: silently
drop when the id matches no outbound op, else remove the op and invoke its
callback once. -/
def completeOutOp (s : ConnState) (id : Nat) (err : SinkErr) :
    ConnState × List ConnEvent :=
  match objGet s.outOps id with
  | none => (s, [])
  | some _ =>
    ({ s with outOps := eraseKey s.outOps id, outPending := s.outPending - 1 },
      [ConnEvent.sinkCall id err])

/-- `TChannelConnection.prototype.handleError(errFrame)`: no `remoteName`
guard; decode the error from the body and complete the out-op. -/
def handleError (s : ConnState) (id code : Nat) (message : String) :
    Option (ConnState × List ConnEvent) :=
  match errorForCode code message with
  | none => none
  | some e => some (completeOutOp s id (.respE e))

/-- `TChannelConnection.prototype.handleCallResponse(resFrame)`: reset when
`remoteName` is still null, else decode the code and complete the out-op. -/
def handleCallResponse (s : ConnState) (id code : Nat) (arg1 : String) :
    Option (ConnState × List ConnEvent) :=
  if s.remoteName = none then
    some (resetAll s (.resetE "call response before init response"))
  else
    match errorForCode code arg1 with
    | none => none
    | some e => some (completeOutOp s id (.respE e))

/-- `TChannelConnection.prototype.handleCallRequest(reqFrame)`: reset before
init; otherwise resolve `arg1` against the channel endpoints.  When no handler
is registered the source assigns a synthesized `noSuchHandler`, emits
`endpoint.missing` and then returns before creating the inbound operation — so
the synthesized handler is never scheduled and no response frame is ever
written.  When a handler exists, the operation record is created and the
handler scheduled via `process.nextTick`. -/
def handleCallRequest {η : Type} (endpoints : List (Bytes × η)) (now : Nat)
    (s : ConnState) (id : Nat) (body : CallReqBody) : ConnState × List ConnEvent :=
  if s.remoteName = none then resetAll s (.resetE "call request before init request")
  else
    match objGet endpoints body.arg1 with
    | none => (s, [ConnEvent.endpointMissingEmit body.arg1])
    | some _ =>
      ({ s with inPending := s.inPending + 1, inOps := objSet s.inOps id ⟨now⟩ },
        [ConnEvent.endpointEmit body.arg1, ConnEvent.scheduledHandler id])

/-- `checkOutOpsForTimeout(ops)`: walk the table in order; drop entries already
flagged `timedOut` (warn only); for live entries whose age exceeds
`op.timeout || reqTimeoutDefault`, drop them and invoke the callback with a
timeout error (`onReqTimeout`, which also stamps `lastTimeoutTime`).  Returns
the surviving table, the callback events in walk order, and whether any op
timed out on this sweep. -/
def checkOutOps (now reqDflt : Nat) :
    List (Nat × OutOp) → List (Nat × OutOp) × List ConnEvent × Bool
  | [] => ([], [], false)
  | (id, op) :: rest =>
    if op.timedOut then checkOutOps now reqDflt rest
    else
      let timeout := if op.timeout = 0 then reqDflt else op.timeout
      let r := checkOutOps now reqDflt rest
      if now - op.start > timeout then
        (r.1, ConnEvent.sinkCall id SinkErr.timedOutE :: r.2.1, true)
      else ((id, op) :: r.1, r.2.1, r.2.2)

/-- `checkInOpsForTimeout(ops)`: prune inbound ops older than
`serverTimeoutDefault` without invoking any sink. -/
def checkInOps (now serverDflt : Nat) (ops : List (Nat × InOp)) : List (Nat × InOp) :=
  ops.filter (fun p => now - p.2.start ≤ serverDflt)

/-- `TChannelConnection.prototype.onTimeoutCheck()`: return when closing;
destroy the socket when a previous sweep left `lastTimeoutTime` set (and no
frame has arrived since to clear it); otherwise sweep both tables and re-arm
the timer. -/
def onTimeoutCheck (now reqDflt serverDflt : Nat) (s : ConnState) :
    ConnState × List ConnEvent :=
  if s.closing then (s, [])
  else if s.lastTimeoutTime ≠ 0 then (s, [ConnEvent.destroySocket])
  else
    let r := checkOutOps now reqDflt s.outOps
    let inOps2 := checkInOps now serverDflt s.inOps
    ({ s with
        outOps := r.1, inOps := inOps2,
        lastTimeoutTime := if r.2.2 then now else s.lastTimeoutTime,
        outPending := s.outPending - ((s.outOps.length - r.1.length : Nat) : Int),
        inPending := s.inPending - ((s.inOps.length - inOps2.length : Nat) : Int) },
      r.2.1 ++ [ConnEvent.rearmTimer])

/-- C6: `resetAll(err)` is a no-op when the connection is already closing;
otherwise it sets `closing`, cancels the timer, empties both operation tables,
invokes each pending outbound operation's sink exactly once with `err` and no
other sink (in particular no inbound handler sink), and — through the
`once('reset')` listener that `addPeer` installed — removes the connection
from the channel's peer sequence under its registration name, where it
occurred at most once. -/
theorem resetAll_cleanup (peers : Peers) (hostPort : String) (connId : Nat)
    (s : ConnState) (err : SinkErr) (hclosing : s.closing = false)
    (hcount : (peers hostPort).count connId ≤ 1) :
    (∀ (s2 : ConnState) (e2 : SinkErr), s2.closing = true →
        resetConn peers hostPort connId s2 e2 = (peers, s2, [])) ∧
      (resetConn peers hostPort connId s err).2.1.closing = true ∧
      (resetConn peers hostPort connId s err).2.1.timerActive = false ∧
      (resetConn peers hostPort connId s err).2.1.inOps = [] ∧
      (resetConn peers hostPort connId s err).2.1.outOps = [] ∧
      (∀ id, (resetConn peers hostPort connId s err).2.2.count
          (ConnEvent.sinkCall id err) = (s.outOps.map Prod.fst).count id) ∧
      (∀ id e, ConnEvent.sinkCall id e ∈ (resetConn peers hostPort connId s err).2.2 →
        e = err) ∧
      connId ∉ (resetConn peers hostPort connId s err).1 hostPort := by
  refine ⟨fun s2 e2 h2 => by simp [resetConn, resetAll, h2], ?_, ?_, ?_, ?_, ?_, ?_, ?_⟩
  · simp [resetConn, resetAll, hclosing]
  · simp [resetConn, resetAll, hclosing]
  · simp [resetConn, resetAll, hclosing]
  · simp [resetConn, resetAll, hclosing]
  · intro id
    have hinj : Function.Injective (fun i => ConnEvent.sinkCall i err) := by
      intro a b h
      simpa using h
    simp only [resetConn, resetAll, hclosing, Bool.false_eq_true, if_false, List.mem_cons,
      true_or, if_true]
    rw [List.count_cons_of_ne (by simp), List.count_append,
      show s.outOps.map (fun p => ConnEvent.sinkCall p.1 err)
          = (s.outOps.map Prod.fst).map (fun i => ConnEvent.sinkCall i err) by
        simp [List.map_map],
      List.count_map_of_injective _ _ hinj]
    simp
  · intro id e hmem
    simp [resetConn, resetAll, hclosing] at hmem
    obtain ⟨p, -, -, h⟩ := hmem
    exact h.symm
  · simp only [resetConn, resetAll, hclosing, Bool.false_eq_true, if_false, List.mem_cons,
      true_or, if_true, removePeer]
    have herase := List.count_erase_self connId (peers hostPort)
    have : ((peers hostPort).erase connId).count connId = 0 := by omega
    simpa using List.count_eq_zero.mp this

/-- Witness for C6 at a concrete connection and peer table (the closing flag
is set by the reset). -/
theorem resetAll_cleanup_witness :
    (resetConn (fun _ => [7]) "b" 7
        ⟨some "a", false, true, 0, 5, [(9, ⟨3⟩)], [(4, ⟨1, 50, false⟩)], 1, 1⟩
        (.resetE "socket closed")).2.1.closing = true :=
  (resetAll_cleanup (fun _ => [7]) "b" 7
    ⟨some "a", false, true, 0, 5, [(9, ⟨3⟩)], [(4, ⟨1, 50, false⟩)], 1, 1⟩
    (.resetE "socket closed") rfl (by decide)).2.1

theorem checkOutOps_spec (now reqDflt : Nat) (ops : List (Nat × OutOp))
    (hops : ∀ p ∈ ops, p.2.timedOut = false ∧ 0 < p.2.timeout) :
    checkOutOps now reqDflt ops =
      (ops.filter (fun p => now - p.2.start ≤ p.2.timeout),
        (ops.filter (fun p => now - p.2.start > p.2.timeout)).map
          (fun p => ConnEvent.sinkCall p.1 SinkErr.timedOutE),
        ops.any (fun p => now - p.2.start > p.2.timeout)) := by
  induction ops with
  | nil => simp [checkOutOps]
  | cons q t ih =>
    obtain ⟨hq1, hq2⟩ := hops q (by simp)
    have ht := ih (fun p hp => hops p (by simp [hp]))
    obtain ⟨id, op⟩ := q
    simp only at hq1 hq2
    by_cases hto : now - op.start > op.timeout
    · have h2 : ¬ now ≤ op.timeout + op.start := by omega
      have h3 : op.timeout + op.start < now := by omega
      simp [checkOutOps, hq1, Nat.pos_iff_ne_zero.mp hq2, ht, hto, h2, h3,
        List.filter_cons, List.any_cons]
    · have h2 : now ≤ op.timeout + op.start := by omega
      have h3 : ¬ op.timeout + op.start < now := by omega
      simp [checkOutOps, hq1, Nat.pos_iff_ne_zero.mp hq2, ht, hto, h2, h3,
        List.filter_cons, List.any_cons]

/-- C7: on a sweeper tick of a non-closing connection (whose outbound table is
in its reachable shape: no already-flagged-timed-out entries, positive
timeouts): if `lastTimeoutTime` is nonzero the socket is destroyed and nothing
else happens; otherwise exactly the outbound operations with
`now - start > timeout` are removed, each such operation's sink is invoked
with a timeout error (in table order), the other operations survive in place,
and `lastTimeoutTime` becomes `now` iff some operation timed out. -/
theorem onTimeoutCheck_spec (now reqDflt serverDflt : Nat) (s : ConnState)
    (hclosing : s.closing = false)
    (hops : ∀ p ∈ s.outOps, p.2.timedOut = false ∧ 0 < p.2.timeout) :
    (s.lastTimeoutTime ≠ 0 →
        onTimeoutCheck now reqDflt serverDflt s = (s, [ConnEvent.destroySocket])) ∧
      (s.lastTimeoutTime = 0 →
        (onTimeoutCheck now reqDflt serverDflt s).1.outOps
            = s.outOps.filter (fun p => now - p.2.start ≤ p.2.timeout) ∧
          (onTimeoutCheck now reqDflt serverDflt s).2
            = (s.outOps.filter (fun p => now - p.2.start > p.2.timeout)).map
                (fun p => ConnEvent.sinkCall p.1 SinkErr.timedOutE)
                ++ [ConnEvent.rearmTimer] ∧
          (onTimeoutCheck now reqDflt serverDflt s).1.lastTimeoutTime
            = if s.outOps.any (fun p => now - p.2.start > p.2.timeout) then now
              else 0) := by
  constructor
  · intro hlt
    simp [onTimeoutCheck, hclosing, hlt]
  · intro hlt
    have hco := checkOutOps_spec now reqDflt s.outOps hops
    refine ⟨?_, ?_, ?_⟩ <;>
      · simp only [onTimeoutCheck, hclosing, hlt]
        rw [hco]
        simp

/-- Witness for C7: a pending escalation (`lastTimeoutTime = 3`) destroys the
socket. -/
theorem onTimeoutCheck_spec_witness :
    onTimeoutCheck 100 5000 5000
        ⟨some "a", false, true, 3, 0, [], [(1, ⟨0, 5, false⟩)], 0, 1⟩
      = (⟨some "a", false, true, 3, 0, [], [(1, ⟨0, 5, false⟩)], 0, 1⟩,
          [ConnEvent.destroySocket]) :=
  (onTimeoutCheck_spec 100 5000 5000
    ⟨some "a", false, true, 3, 0, [], [(1, ⟨0, 5, false⟩)], 0, 1⟩
    rfl (by decide)).1 (by decide)

/-- C10: on a connection whose `remoteName` is still null, an Error frame never
resets the connection — it completes the matching out-op with the decoded
error, or is silently dropped when the id matches no out-op — whereas a
CallResponse frame in the same (non-closing) state resets the connection. -/
theorem handleError_no_reset (s : ConnState) (hrn : s.remoteName = none) :
    (∀ id code msg r, handleError s id code msg = some r →
        r.1.closing = s.closing ∧ r.1.remoteName = s.remoteName ∧
        (objGet s.outOps id = none → r = (s, [])) ∧
        (objGet s.outOps id ≠ none →
          ∃ e, errorForCode code msg = some e ∧
            r.1.outOps = eraseKey s.outOps id ∧
            r.2 = [ConnEvent.sinkCall id (.respE e)])) ∧
      (s.closing = false → ∀ id code arg1, ∃ r,
        handleCallResponse s id code arg1 = some r ∧ r.1.closing = true) := by
  constructor
  · intro id code msg r h
    rw [handleError] at h
    cases herr : errorForCode code msg with
    | none => rw [herr] at h; cases h
    | some e =>
      rw [herr] at h
      have hr : r = completeOutOp s id (.respE e) := by
        cases h
        rfl
      rw [hr, completeOutOp]
      cases hop : objGet s.outOps id with
      | none => exact ⟨rfl, rfl, fun _ => rfl, fun hne => absurd rfl hne⟩
      | some op =>
        exact ⟨rfl, rfl, fun hno => absurd hno (by simp),
          fun _ => ⟨e, rfl, rfl, rfl⟩⟩
  · intro hcl id code arg1
    refine ⟨_, by rw [handleCallResponse, if_pos hrn], ?_⟩
    simp [resetAll, hcl]

/-- Witness for C10 at a concrete pre-init connection: the Error frame
completes the out-op and leaves `closing` untouched. -/
theorem handleError_no_reset_witness :
    (({ remoteName := none, closing := false, timerActive := true, lastTimeoutTime := 0,
        lastSentFrameId := 0, inOps := ([]), outOps := ([]), inPending := 0,
        outPending := 0 : ConnState },
      [ConnEvent.sinkCall 4
        (.respE (some (.typed .timeoutK (.ofJ (.jstr "boom")))))]) :
          ConnState × List ConnEvent).1.closing
      = (⟨none, false, true, 0, 0, [], [(4, ⟨1, 50, false⟩)], 0, 1⟩ : ConnState).closing :=
  ((handleError_no_reset ⟨none, false, true, 0, 0, [], [(4, ⟨1, 50, false⟩)], 0, 1⟩ rfl).1
    4 1 "boom"
    ({ remoteName := none, closing := false, timerActive := true, lastTimeoutTime := 0,
        lastSentFrameId := 0, inOps := ([]), outOps := ([]), inPending := 0,
        outPending := 0 : ConnState },
      [ConnEvent.sinkCall 4 (.respE (some (.typed .timeoutK (.ofJ (.jstr "boom")))))])
    rfl).1

/-- C4 (code evaluated at the failing input): on an initialized connection
(`remoteName` set) with an empty endpoint registry, a CallRequest whose `arg1`
is `missing` leaves the connection state untouched and produces only the
`endpoint.missing` emission: no inbound operation is created, no handler —
including the synthesized no-such-operation handler — is scheduled, and no
response of any kind is produced, so the caller's sink can never receive the
`no such operation` error the specification promises. -/
theorem noSuchEndpoint_no_response :
    handleCallRequest ([] : List (Bytes × Nat)) 100
        ⟨some "127.0.0.1:4040", false, true, 0, 1, [], [], 0, 0⟩ 2
        ⟨50, List.replicate 24 0, [], [], [109, 105, 115, 115, 105, 110, 103], [], [], 0⟩
      = (⟨some "127.0.0.1:4040", false, true, 0, 1, [], [], 0, 0⟩,
          [ConnEvent.endpointMissingEmit [109, 105, 115, 115, 105, 110, 103]]) ∧
      (∀ id, ConnEvent.scheduledHandler id
          ∉ (handleCallRequest ([] : List (Bytes × Nat)) 100
              ⟨some "127.0.0.1:4040", false, true, 0, 1, [], [], 0, 0⟩ 2
              ⟨50, List.replicate 24 0, [], [], [109, 105, 115, 115, 105, 110, 103],
                [], [], 0⟩).2) ∧
      (∀ id e, ConnEvent.sinkCall id e
          ∉ (handleCallRequest ([] : List (Bytes × Nat)) 100
              ⟨some "127.0.0.1:4040", false, true, 0, 1, [], [], 0, 0⟩ 2
              ⟨50, List.replicate 24 0, [], [], [109, 105, 115, 115, 105, 110, 103],
                [], [], 0⟩).2) := by
  refine ⟨rfl, ?_, ?_⟩ <;> intros <;> simp [handleCallRequest, objGet]

/-! ## C2/C3: the chunk reader (src/unnamed/part_000, `ChunkReader`)

Two-state machine over the parse buffer; TChannel v2 framing uses a 4-byte
big-endian frame length (`frameLengthSize = 4`, `_readUInt32BELength`).
`ParseBuffer` (not under src/; modelled from spec section 4.1) is an
append-and-consume byte queue, modelled by the `buffer` list with
`push = append`, `shift n = take/drop n`. -/

/-- The reader's configured length-prefix width: TChannel v2 frames. -/
def frameLenSize : Nat := 4

/-- `ChunkReader` state: parse buffer, `expecting`, and the FSM state
(`seeking = false` is `PendingLength`, `true` is `Seeking`). -/
structure RState where
  buffer : Bytes
  expecting : Nat
  seeking : Bool
  deriving DecidableEq

/-- Observable outputs of the reader, in emission order: the zero-length-frame
error, the broken-reader-state error (`shift` returned an empty chunk), the
thrown range error of reading a length past the buffer end (unreachable from
well-formed states), and a frame slice handed to `handleFrame`. -/
inductive REvent where
  | zeroLenError
  | brokenState
  | readPastEnd
  | frameChunk (bytes : Bytes)
  deriving DecidableEq

/-- The `while (avail() >= expecting)` loop body of
`ChunkReader.prototype._transform`, run to quiescence:

* `PendingLength`: read a `u32be` length at offset 0; a zero length emits the
  zero-length-frame error, shifts the 4 length bytes and stays in
  `PendingLength`; otherwise `expecting := size`, go to `Seeking`.
* `Seeking`: shift `expecting` bytes; an empty shifted chunk reports the
  broken-reader-state error and stops; otherwise the chunk goes to
  `handleFrame`, `expecting := 4`, back to `PendingLength`. -/
def drainR (s : RState) : RState × List REvent :=
  if hq : s.buffer.length < s.expecting then (s, [])
  else
    if hseek : s.seeking then
      if hc : (s.buffer.take s.expecting).length = 0 then (s, [.brokenState])
      else
        let r := drainR ⟨s.buffer.drop s.expecting, frameLenSize, false⟩
        (r.1, .frameChunk (s.buffer.take s.expecting) :: r.2)
    else
      match hm : s.buffer with
      | b3 :: b2 :: b1 :: b0 :: _ =>
        let size := ((b3 * 256 + b2) * 256 + b1) * 256 + b0
        if hz : size = 0 then
          let r := drainR ⟨s.buffer.drop frameLenSize, frameLenSize, false⟩
          (r.1, .zeroLenError :: r.2)
        else drainR ⟨s.buffer, size, true⟩
      | _ => (s, [.readPastEnd])
termination_by 2 * s.buffer.length + (if s.seeking then 0 else 1)
decreasing_by
  · simp only [List.length_take] at hc
    simp [hseek, List.length_drop]
    omega
  · have h3 : 4 ≤ s.buffer.length := by
      rw [hm]
      simp
    simp [hseek, List.length_drop, frameLenSize]
    omega
  · simp [hseek]

/-- `ChunkReader.prototype._transform(chunk, ...)`: push the chunk onto the
parse buffer, then run the loop. -/
def transformR (s : RState) (chunk : Bytes) : RState × List REvent :=
  drainR ⟨s.buffer ++ chunk, s.expecting, s.seeking⟩

/-- A freshly constructed reader (4-byte length option). -/
def freshR : RState := ⟨[], frameLenSize, false⟩

/-- Feed a sequence of chunks through `_transform`, collecting outputs in
order. -/
def feedR : RState → List Bytes → RState × List REvent
  | s, [] => (s, [])
  | s, c :: cs =>
    let r1 := transformR s c
    let r2 := feedR r1.1 cs
    (r2.1, r1.2 ++ r2.2)

/-- A well-formed frame slice: at least the 16-byte header, a length below
`2 ^ 32`, and a leading `size:u32be` equal to the slice's own length. -/
def ValidFrame (f : Bytes) : Prop :=
  16 ≤ f.length ∧ f.length < 2 ^ 32 ∧ f.take 4 = be32 f.length

/-- Reachable-state invariant: `PendingLength` always expects the 4 length
bytes; `Seeking` always expects a positive frame size. -/
def InvR (s : RState) : Prop :=
  (s.seeking = false → s.expecting = frameLenSize) ∧
    (s.seeking = true → 1 ≤ s.expecting)

theorem drainR_eq_quiescent (s : RState) (h : s.buffer.length < s.expecting) :
    drainR s = (s, []) := by
  rw [drainR]
  simp [h]

theorem drainR_eq_seek (s : RState) (h1 : ¬ s.buffer.length < s.expecting)
    (h2 : s.seeking = true) (h3 : ¬ (s.buffer.take s.expecting).length = 0) :
    drainR s
      = ((drainR ⟨s.buffer.drop s.expecting, frameLenSize, false⟩).1,
          .frameChunk (s.buffer.take s.expecting)
            :: (drainR ⟨s.buffer.drop s.expecting, frameLenSize, false⟩).2) := by
  rw [drainR]
  simp [h1, h2, h3]
  constructor
  · intro he
    exact h3 (by simp [List.length_take, he])
  · intro he
    exact h3 (by simp [he])

theorem drainR_eq_zero (b3 b2 b1 b0 : Nat) (tl : Bytes) (exp : Nat)
    (h1 : exp ≤ tl.length + 4)
    (hz : ((b3 * 256 + b2) * 256 + b1) * 256 + b0 = 0) :
    drainR ⟨b3 :: b2 :: b1 :: b0 :: tl, exp, false⟩
      = ((drainR ⟨tl, frameLenSize, false⟩).1,
          .zeroLenError :: (drainR ⟨tl, frameLenSize, false⟩).2) := by
  have h1a : ¬ (b3 :: b2 :: b1 :: b0 :: tl).length < exp := by
    simp
    omega
  rw [drainR]
  simp [h1a, hz, frameLenSize]
  omega

theorem drainR_eq_nonzero (b3 b2 b1 b0 : Nat) (tl : Bytes) (exp : Nat)
    (h1 : exp ≤ tl.length + 4)
    (hz : ¬ ((b3 * 256 + b2) * 256 + b1) * 256 + b0 = 0) :
    drainR ⟨b3 :: b2 :: b1 :: b0 :: tl, exp, false⟩
      = drainR ⟨b3 :: b2 :: b1 :: b0 :: tl,
          ((b3 * 256 + b2) * 256 + b1) * 256 + b0, true⟩ := by
  have h1a : ¬ (b3 :: b2 :: b1 :: b0 :: tl).length < exp := by
    simp
    omega
  rw [drainR]
  simp [h1a, hz]
  intro hlt
  exact absurd hlt (by omega)

theorem InvR_pending (buf : Bytes) : InvR ⟨buf, frameLenSize, false⟩ :=
  ⟨fun _ => rfl, fun h => Bool.noConfusion h⟩

theorem InvR_of_not_seeking (s : RState) (hinv : InvR s) (h2 : ¬ s.seeking = true) :
    s.expecting = frameLenSize :=
  hinv.1 (Bool.not_eq_true _ ▸ h2)

theorem buffer_four_of_pending (s : RState) (hinv : InvR s)
    (h1 : ¬ s.buffer.length < s.expecting) (h2 : ¬ s.seeking = true)
    (hnom : ∀ (b3 b2 b1 b0 : Nat) (tl : List Nat),
      s.buffer = b3 :: b2 :: b1 :: b0 :: tl → False) : False := by
  have hexp := InvR_of_not_seeking s hinv h2
  rw [hexp, frameLenSize] at h1
  have h4 : 4 ≤ s.buffer.length := Nat.not_lt.mp h1
  rcases hbuf : s.buffer with _ | ⟨b3, _ | ⟨b2, _ | ⟨b1, _ | ⟨b0, tl⟩⟩⟩⟩
  · rw [hbuf] at h4
    simp at h4
  · rw [hbuf] at h4
    simp at h4
  · rw [hbuf] at h4
    simp at h4
  · rw [hbuf] at h4
    simp at h4
  · exact hnom b3 b2 b1 b0 tl hbuf

/-- From a well-formed state, the loop ends quiescent in a well-formed state
and never reports a broken reader state or reads a length past the end. -/
theorem drainR_good (s : RState) (hinv : InvR s) :
    InvR (drainR s).1 ∧ (drainR s).1.buffer.length < (drainR s).1.expecting ∧
      REvent.brokenState ∉ (drainR s).2 ∧ REvent.readPastEnd ∉ (drainR s).2 := by
  induction s using drainR.induct with
  | case1 s h =>
    rw [drainR_eq_quiescent s h]
    exact ⟨hinv, h, by simp, by simp⟩
  | case2 s h1 h2 h3 =>
    exfalso
    have hexp := hinv.2 h2
    have hlen := Nat.not_lt.mp h1
    simp only [List.length_take] at h3
    omega
  | case3 s h1 h2 h3 ih =>
    rw [drainR_eq_seek s h1 h2 h3]
    have hg := ih (InvR_pending _)
    exact ⟨hg.1, hg.2.1, by simp [hg.2.2.1], by simp [hg.2.2.2]⟩
  | case4 s h1 h2 b3 b2 b1 b0 tl hm size hz ih =>
    obtain ⟨buf, exp, seek⟩ := s
    simp only at hm h1 h2 ih
    rw [Bool.not_eq_true] at h2
    subst hm h2
    have h1a : exp ≤ tl.length + 4 := by
      simp at h1
      omega
    have hdrop : List.drop frameLenSize (b3 :: b2 :: b1 :: b0 :: tl) = tl := rfl
    rw [hdrop] at ih
    rw [drainR_eq_zero b3 b2 b1 b0 tl exp h1a hz]
    have hg := ih (InvR_pending tl)
    exact ⟨hg.1, hg.2.1, by simp [hg.2.2.1], by simp [hg.2.2.2]⟩
  | case5 s h1 h2 b3 b2 b1 b0 tl hm size hz ih =>
    obtain ⟨buf, exp, seek⟩ := s
    simp only at hm h1 h2 ih
    rw [Bool.not_eq_true] at h2
    subst hm h2
    have h1a : exp ≤ tl.length + 4 := by
      simp at h1
      omega
    rw [drainR_eq_nonzero b3 b2 b1 b0 tl exp h1a hz]
    exact ih ⟨fun h => Bool.noConfusion h, fun _ => by
      show 1 ≤ ((b3 * 256 + b2) * 256 + b1) * 256 + b0
      omega⟩
  | case6 s h1 h2 hnom =>
    exact absurd (buffer_four_of_pending s hinv h1 h2 hnom) not_false

/-- Appending further input to the buffer before running the loop is the same
as running the loop, appending to the quiescent result, and running again
(with the outputs concatenated): the loop is incremental. -/
theorem drainR_append (b : Bytes) (s : RState) (hinv : InvR s) :
    drainR ⟨s.buffer ++ b, s.expecting, s.seeking⟩
      = ((drainR ⟨(drainR s).1.buffer ++ b, (drainR s).1.expecting,
            (drainR s).1.seeking⟩).1,
          (drainR s).2
            ++ (drainR ⟨(drainR s).1.buffer ++ b, (drainR s).1.expecting,
                (drainR s).1.seeking⟩).2) := by
  induction s using drainR.induct with
  | case1 s h =>
    rw [drainR_eq_quiescent s h]
    simp
  | case2 s h1 h2 h3 =>
    exfalso
    have hexp := hinv.2 h2
    have hlen := Nat.not_lt.mp h1
    simp only [List.length_take] at h3
    omega
  | case3 s h1 h2 h3 ih =>
    have hle : s.expecting ≤ s.buffer.length := Nat.not_lt.mp h1
    have h1b : ¬ (s.buffer ++ b).length < s.expecting := by
      simp only [List.length_append]
      omega
    have h3b : ¬ ((s.buffer ++ b).take s.expecting).length = 0 := by
      rw [List.take_append_of_le_length hle]
      exact h3
    rw [drainR_eq_seek s h1 h2 h3,
      drainR_eq_seek ⟨s.buffer ++ b, s.expecting, s.seeking⟩ h1b h2 h3b]
    simp only [List.take_append_of_le_length hle, List.drop_append_of_le_length hle]
    have hr := ih (InvR_pending _)
    simp only at hr
    rw [hr]
    simp
  | case4 s h1 h2 b3 b2 b1 b0 tl hm size hz ih =>
    obtain ⟨buf, exp, seek⟩ := s
    simp only at hm h1 h2 ih ⊢
    rw [Bool.not_eq_true] at h2
    subst hm h2
    have h1a : exp ≤ tl.length + 4 := by
      simp at h1
      omega
    rw [drainR_eq_zero b3 b2 b1 b0 tl exp h1a hz]
    rw [show (b3 :: b2 :: b1 :: b0 :: tl) ++ b = b3 :: b2 :: b1 :: b0 :: (tl ++ b) by simp]
    rw [drainR_eq_zero b3 b2 b1 b0 (tl ++ b) exp (by simp; omega) hz]
    have hdrop : List.drop frameLenSize (b3 :: b2 :: b1 :: b0 :: tl) = tl := rfl
    rw [hdrop] at ih
    have hr := ih (InvR_pending tl)
    simp only at hr
    rw [hr]
    simp
  | case5 s h1 h2 b3 b2 b1 b0 tl hm size hz ih =>
    obtain ⟨buf, exp, seek⟩ := s
    simp only at hm h1 h2 ih ⊢
    rw [Bool.not_eq_true] at h2
    subst hm h2
    have h1a : exp ≤ tl.length + 4 := by
      simp at h1
      omega
    rw [drainR_eq_nonzero b3 b2 b1 b0 tl exp h1a hz]
    rw [show (b3 :: b2 :: b1 :: b0 :: tl) ++ b = b3 :: b2 :: b1 :: b0 :: (tl ++ b) by simp]
    rw [drainR_eq_nonzero b3 b2 b1 b0 (tl ++ b) exp (by simp; omega) hz]
    have hr := ih ⟨fun h => Bool.noConfusion h, fun _ => by
      show 1 ≤ ((b3 * 256 + b2) * 256 + b1) * 256 + b0
      omega⟩
    simp only at hr
    rw [show b3 :: b2 :: b1 :: b0 :: (tl ++ b)
        = (b3 :: b2 :: b1 :: b0 :: tl) ++ b by simp]
    exact hr
  | case6 s h1 h2 hnom =>
    exact absurd (buffer_four_of_pending s hinv h1 h2 hnom) not_false

instance (f : Bytes) : Decidable (ValidFrame f) := by
  unfold ValidFrame
  infer_instance

/-- Consuming one well-formed frame from the front of the buffer: the reader
reads the frame's own length from its first four bytes, shifts exactly that
many bytes as the frame slice, and returns to `PendingLength` on the rest. -/
theorem drainR_frame (f rest : Bytes) (hf : ValidFrame f) :
    drainR ⟨f ++ rest, frameLenSize, false⟩
      = ((drainR ⟨rest, frameLenSize, false⟩).1,
          .frameChunk f :: (drainR ⟨rest, frameLenSize, false⟩).2) := by
  obtain ⟨h16, h32, htake⟩ := hf
  obtain ⟨b3, b2, b1, b0, tl, rfl⟩ : ∃ b3 b2 b1 b0 tl, f = b3 :: b2 :: b1 :: b0 :: tl := by
    rcases f with _ | ⟨b3, _ | ⟨b2, _ | ⟨b1, _ | ⟨b0, tl⟩⟩⟩⟩
    · simp at h16
    · simp at h16
    · simp at h16
    · simp at h16
    · exact ⟨b3, b2, b1, b0, tl, rfl⟩
  have hn : (b3 :: b2 :: b1 :: b0 :: tl).length = tl.length + 4 := by simp
  have ht4 : (b3 :: b2 :: b1 :: b0 :: tl).take 4 = [b3, b2, b1, b0] := rfl
  rw [ht4, hn] at htake
  rw [hn] at h32
  simp only [be32, List.cons.injEq, and_true] at htake
  obtain ⟨e3, e2, e1, e0⟩ := htake
  have hsize : ((b3 * 256 + b2) * 256 + b1) * 256 + b0 = tl.length + 4 := by
    subst e3 e2 e1 e0
    omega
  rw [show (b3 :: b2 :: b1 :: b0 :: tl) ++ rest
      = b3 :: b2 :: b1 :: b0 :: (tl ++ rest) from by simp]
  rw [drainR_eq_nonzero b3 b2 b1 b0 (tl ++ rest) frameLenSize
    (by simp [frameLenSize]) (by rw [hsize]; omega)]
  rw [hsize]
  have h1 : ¬ (b3 :: b2 :: b1 :: b0 :: (tl ++ rest)).length < tl.length + 4 := by
    simp
  have htk : (b3 :: b2 :: b1 :: b0 :: (tl ++ rest)).take (tl.length + 4)
      = b3 :: b2 :: b1 :: b0 :: tl := by
    rw [show b3 :: b2 :: b1 :: b0 :: (tl ++ rest)
        = (b3 :: b2 :: b1 :: b0 :: tl) ++ rest from by simp]
    exact List.take_left' (by simp)
  have hdp : (b3 :: b2 :: b1 :: b0 :: (tl ++ rest)).drop (tl.length + 4) = rest := by
    rw [show b3 :: b2 :: b1 :: b0 :: (tl ++ rest)
        = (b3 :: b2 :: b1 :: b0 :: tl) ++ rest from by simp]
    exact List.drop_left' (by simp)
  rw [drainR_eq_seek ⟨b3 :: b2 :: b1 :: b0 :: (tl ++ rest), tl.length + 4, true⟩ h1 rfl
    (by rw [show (⟨b3 :: b2 :: b1 :: b0 :: (tl ++ rest), tl.length + 4,
        true⟩ : RState).buffer.take (tl.length + 4) = b3 :: b2 :: b1 :: b0 :: tl
        from htk]
        simp)]
  simp only
  rw [htk, hdp]

/-- A stream that is exactly a concatenation of well-formed frames is consumed
completely, emitting exactly those frame slices and returning to the fresh
state. -/
theorem drainR_stream (frames : List Bytes) (hfr : ∀ f ∈ frames, ValidFrame f) :
    drainR ⟨frames.flatten, frameLenSize, false⟩
      = (freshR, frames.map REvent.frameChunk) := by
  induction frames with
  | nil =>
    rw [show (([] : List Bytes).flatten) = ([] : Bytes) from rfl]
    rw [drainR_eq_quiescent ⟨[], frameLenSize, false⟩ (by simp [frameLenSize])]
    rfl
  | cons f t ih =>
    rw [show ((f :: t).flatten) = f ++ t.flatten from by simp]
    rw [drainR_frame f t.flatten (hfr f (by simp))]
    rw [ih (fun g hg => hfr g (by simp [hg]))]
    simp

/-- Feeding chunks one `_transform` call at a time, starting from a quiescent
well-formed state, is the same as draining their concatenation. -/
theorem feedR_drain (cs : List Bytes) (s : RState) (hinv : InvR s)
    (hq : s.buffer.length < s.expecting) :
    feedR s cs = drainR ⟨s.buffer ++ cs.flatten, s.expecting, s.seeking⟩ := by
  induction cs generalizing s with
  | nil =>
    rw [show (([] : List Bytes).flatten) = ([] : Bytes) from rfl, List.append_nil]
    rw [show (⟨s.buffer, s.expecting, s.seeking⟩ : RState) = s from rfl]
    rw [drainR_eq_quiescent s hq]
    rfl
  | cons c cs ih =>
    have hinvX : InvR ⟨s.buffer ++ c, s.expecting, s.seeking⟩ := hinv
    have hg := drainR_good ⟨s.buffer ++ c, s.expecting, s.seeking⟩ hinvX
    have happ := drainR_append cs.flatten ⟨s.buffer ++ c, s.expecting, s.seeking⟩ hinvX
    simp only at happ
    rw [show ((c :: cs).flatten) = c ++ cs.flatten from by simp]
    rw [show s.buffer ++ (c ++ cs.flatten) = (s.buffer ++ c) ++ cs.flatten from by simp]
    simp only [feedR, transformR]
    rw [ih (drainR ⟨s.buffer ++ c, s.expecting, s.seeking⟩).1 hg.1 hg.2.1]
    rw [happ]

/-- C2: for every valid byte stream (a concatenation of well-formed frames)
and every partition of that stream into chunks, feeding the chunks in order to
the chunk reader emits the identical sequence of frame slices — exactly the
frames, each handed to `handleFrame` and hence decoded identically — and
leaves the reader in the fresh state, independent of the partition. -/
theorem chunkReader_partition (frames : List Bytes) (hfr : ∀ f ∈ frames, ValidFrame f)
    (chunks : List Bytes) (hpart : chunks.flatten = frames.flatten) :
    feedR freshR chunks = (freshR, frames.map REvent.frameChunk) := by
  rw [feedR_drain chunks freshR (InvR_pending []) (by simp [freshR, frameLenSize])]
  rw [show freshR.buffer ++ chunks.flatten = frames.flatten from by simp [freshR, hpart]]
  exact drainR_stream frames hfr

/-- Witness for C2: a 16-byte frame split into a 5-byte and an 11-byte chunk
yields exactly that frame slice. -/
theorem chunkReader_partition_witness :
    feedR freshR [[0, 0, 0, 16, 0], [0, 0, 0, 0, 0, 0, 0, 0, 0, 0, 0]]
      = (freshR,
          [REvent.frameChunk [0, 0, 0, 16, 0, 0, 0, 0, 0, 0, 0, 0, 0, 0, 0, 0]]) :=
  chunkReader_partition [[0, 0, 0, 16, 0, 0, 0, 0, 0, 0, 0, 0, 0, 0, 0, 0]]
    (by decide) [[0, 0, 0, 16, 0], [0, 0, 0, 0, 0, 0, 0, 0, 0, 0, 0]] (by decide)

/-- C3: a `_transform` call on a fresh (PendingLength) reader whose input
starts with `00 00 00 00` emits exactly one zero-length-frame error for that
prefix, skips the 4 length bytes, remains in `PendingLength`, and handles the
following bytes exactly as a fresh reader would (same final state, same
subsequent outputs): it resumes rather than looping or corrupting state. -/
theorem zeroLengthFrame_resync (rest : Bytes) :
    transformR freshR (0 :: 0 :: 0 :: 0 :: rest)
      = ((transformR freshR rest).1,
          REvent.zeroLenError :: (transformR freshR rest).2) := by
  simp only [transformR, freshR, List.nil_append]
  exact drainR_eq_zero 0 0 0 0 rest frameLenSize (by simp [frameLenSize]) (by norm_num)

end TChan
